import Mathlib

/-!
# barkpaste: paste lifecycle and authorization policy

A shallow embedding of `internal/models`, `internal/repository/paste`,
`internal/repository/token` and `internal/service/paste`.

Conventions of the embedding

* A Go method with a pointer receiver becomes a function that takes the
  receiver's state and returns a `Result`: the returned value, the returned
  `error` (`none` is Go's `nil`) and the receiver's state after the call.
* A gorm table is the list of its rows, in insertion order.  The database is
  taken to be operational: the only errors a statement produces are the ones
  gorm itself defines for the statement (`ErrDuplicatedKey`, translated from
  the driver because the handle is opened with `TranslateError: true`,
  `ErrRecordNotFound`, `ErrMissingWhereClause`).
* The database is SQLite, the default of the command line (`--type sqlite`).
  Its driver binds a `time.Time` as the text
  `t.Format("2006-01-02 15:04:05.999999999-07:00")`, and SQLite compares two
  such texts byte by byte.  A row is kept as the Go value written to it; the
  text is computed from it where the database compares.  That the driver hands
  a time back in a location of its own, at the instant written, is left out.
* `time.Now()` and the output of `nanoid.Must` are inputs of the function
  that calls them.
* A `time.Time` is an instant, the integer number of nanoseconds since the
  Unix epoch, together with its location; a duration is an integer number of
  nanoseconds.
-/

namespace barkpaste

/-- Outcome of a Go call: the value returned, the error returned and the state of the
receiver after the call. -/
structure Result (ε α σ : Type) where
  value : α
  err : Option ε
  state : σ
deriving DecidableEq, Repr

/-! ## Package `time` (the part the program uses) -/

namespace time

abbrev Duration := Int

def Second : Duration := 1000000000

def Hour : Duration := 3600 * Second

/-- A `*time.Location` other than UTC: the offset, in seconds east of UTC, in use before the
first transition, and the transitions `(when, offset)`, in increasing order of `when`, a Unix
time in seconds from which `offset` is in use. -/
structure Location where
  offset : Int
  tx : List (Int × Int)
deriving DecidableEq, Repr

/-- The offset in use at the Unix time `sec`. -/
def Location.lookup (l : Location) (sec : Int) : Int :=
  l.tx.foldl (fun offset zoneTrans => if zoneTrans.1 ≤ sec then zoneTrans.2 else offset) l.offset

/-- A `time.Time`: the instant, in nanoseconds since the Unix epoch, and the location, `none`
being UTC (the nil pointer of the Go value). -/
structure Time where
  unixNano : Int
  loc : Option Location
deriving DecidableEq, Repr

/-- The value `time.Unix(sec, nsec).UTC()`. -/
def Unix (sec nsec : Int) : Time := { unixNano := sec * Second + nsec, loc := none }

/-- The method `t.In(loc)` for a location other than UTC. -/
def Time.In (t : Time) (loc : Location) : Time := { t with loc := some loc }

/-- The method `t.Before(u)`: a comparison of instants. -/
def Time.Before (t u : Time) : Bool := decide (t.unixNano < u.unixNano)

/-- Days between 1970-01-01 and the given day of the proleptic Gregorian calendar. -/
def daysFromCivil (year month day : Int) : Int :=
  let y := if month ≤ 2 then year - 1 else year
  let era := y / 400
  let yoe := y - era * 400
  let mp := (month + 9) % 12
  let doy := (153 * mp + 2) / 5 + day - 1
  let doe := yoe * 365 + yoe / 4 - yoe / 100 + doy
  era * 146097 + doe - 719468

/-- The instant `time.Date(year, month, day, hour, min, sec, nsec, time.UTC)` for arguments
in their normal ranges. -/
def Date (year month day hour min sec nsec : Int) : Time :=
  { unixNano :=
      ((daysFromCivil year month day * 24 + hour) * 3600 + min * 60 + sec) * Second + nsec,
    loc := none }

/-- The zero value `time.Time{}`: January 1, year 1, 00:00:00 UTC. -/
def zero : Time := Date 1 1 1 0 0 0 0

/-- The method `t.Add(d)`. -/
def Add (t : Time) (d : Duration) : Time := { t with unixNano := t.unixNano + d }

/-- Year, month and day of the day that many days after 1970-01-01. -/
def civilFromDays (days : Int) : Int × Int × Int :=
  let z := days + 719468
  let era := z / 146097
  let doe := z - era * 146097
  let yoe := (doe - doe / 1460 + doe / 36524 - doe / 146096) / 365
  let doy := doe - (365 * yoe + yoe / 4 - yoe / 100)
  let mp := (5 * doy + 2) / 153
  let day := doy - (153 * mp + 2) / 5 + 1
  let month := if mp < 10 then mp + 3 else mp - 9
  let year := yoe + era * 400 + (if month ≤ 2 then 1 else 0)
  (year, month, day)

/-- The last `width` decimal digits of `x`, as ASCII bytes. -/
def fixedDigits : Nat → Nat → List Nat
  | 0, _ => []
  | width + 1, x => fixedDigits width (x / 10) ++ [48 + x % 10]

/-- The bytes `appendInt` of package `time` appends: a minus sign for a negative number, then
the decimal digits, padded with zeros to `width` digits. -/
def appendInt (x : Int) (width : Nat) : List Nat :=
  let u := x.natAbs
  let n := max width (Nat.toDigits 10 u).length
  (if x < 0 then [45] else []) ++ fixedDigits n u

/-- The bytes of the layout element `.999999999`: nothing for zero nanoseconds, else a dot and
nine digits with the trailing zeros removed. -/
def appendNano (nanosec : Int) : List Nat :=
  if nanosec = 0 then []
  else [46] ++ ((fixedDigits 9 nanosec.natAbs).reverse.dropWhile (fun b => b == 48)).reverse

/-- The bytes of `t.Format("2006-01-02 15:04:05.999999999-07:00")`. -/
def Format (t : Time) : List Nat :=
  let sec := t.unixNano / Second
  let nsec := t.unixNano % Second
  let offset := match t.loc with
    | none => 0
    | some l => l.lookup sec
  let abs := sec + offset
  let date := civilFromDays (abs / 86400)
  let rem := abs % 86400
  let zone : Int := offset.natAbs / 60
  appendInt date.1 4 ++ [45] ++ appendInt date.2.1 2 ++ [45] ++ appendInt date.2.2 2 ++ [32] ++
    appendInt (rem / 3600) 2 ++ [58] ++ appendInt (rem % 3600 / 60) 2 ++ [58] ++
    appendInt (rem % 60) 2 ++ appendNano nsec ++
    (if offset ≤ -60 then [45] else [43]) ++ appendInt (zone / 60) 2 ++ [58] ++
    appendInt (zone % 60) 2

/-- The string with the given bytes, all of them ASCII. -/
def text (b : List Nat) : String := String.mk (b.map Char.ofNat)

end time

/-! ## Package `gorm` (errors) -/

namespace gorm

inductive Error where
  | ErrRecordNotFound
  | ErrDuplicatedKey
  | ErrMissingWhereClause
deriving DecidableEq, Repr

end gorm

/-! ## Package `models` -/

namespace models

/-- A row of table `pastes`.  `Content` is a Go byte slice: `none` is the nil slice. -/
structure Paste where
  ID : String
  Content : Option (List UInt8)
  IsPersistent : Bool
  ExpiredAt : time.Time
deriving DecidableEq, Repr

/-- The zero value `models.Paste{}`. -/
def Paste.zero : Paste :=
  { ID := "", Content := none, IsPersistent := false, ExpiredAt := time.zero }

set_option linter.dupNamespace false in
/-- Modelled from the spec: the declaration of `models.Token` is not among the sources.  A
token is one string, `token`, unique in its table (Data model, Token). -/
structure Token where
  Token : String
deriving DecidableEq, Repr

end models

/-- The builtin `len` on a byte slice. -/
def len (content : Option (List UInt8)) : Nat :=
  match content with
  | none => 0
  | some bytes => bytes.length

/-- The conversion `int(u)` of a 64-bit `uint`. -/
def int (u : Nat) : Int :=
  let w : Nat := u % 2 ^ 64
  if w < 2 ^ 63 then (w : Int) else (w : Int) - 2 ^ 64

/-! ## The database (SQLite through `gorm.io/driver/sqlite`) -/

namespace sqlite

/-- The value the driver binds for a `time.Time`, in a row and as a statement argument: the
text of the first of its timestamp formats. -/
def bind (t : time.Time) : List Nat := time.Format t

/-- The comparison `a < b` of two texts: byte by byte, a proper prefix being smaller. -/
def lt : List Nat → List Nat → Bool
  | [], [] => false
  | [], _ :: _ => true
  | _ :: _, [] => false
  | a :: as, b :: bs => if a < b then true else if b < a then false else lt as bs

end sqlite

/-! ## Package `repository/paste` -/

namespace repository.paste

/-- The receiver: `db` is table `pastes`. -/
structure concreteRepository where
  db : List models.Paste
deriving DecidableEq, Repr

abbrev Ret (α : Type) := Result gorm.Error α concreteRepository

/-- The statement `INSERT INTO pastes`: the primary key `id` rejects a second row with the
same id. -/
def Create (c : concreteRepository) (paste : models.Paste) : Ret models.Paste :=
  if c.db.any (fun row => row.ID == paste.ID) then
    { value := paste, err := some gorm.Error.ErrDuplicatedKey, state := c }
  else
    { value := paste, err := none, state := { db := c.db ++ [paste] } }

def Delete (c : concreteRepository) (id : String) : Ret models.Paste :=
  let paste := models.Paste.zero
  let RowsAffected := c.db.countP (fun row => row.ID == id)
  if RowsAffected = 0 then
    { value := paste, err := some gorm.Error.ErrRecordNotFound, state := c }
  else
    { value := paste, err := none, state := { db := c.db.filter (fun row => !(row.ID == id)) } }

def GetByID (c : concreteRepository) (id : String) : Ret models.Paste :=
  match c.db.find? (fun row => row.ID == id) with
  | some paste => { value := paste, err := none, state := c }
  | none => { value := models.Paste.zero, err := some gorm.Error.ErrRecordNotFound, state := c }

def List (c : concreteRepository) : Ret (List models.Paste) :=
  { value := c.db, err := none, state := c }

/-- The assignment list of `Updates(paste)` applied to one row: gorm assigns the fields of
`paste` that are not the zero value of their type; for `ExpiredAt` that is the Go value
`time.Time{}`, the zero instant in UTC, not the same instant in another location. -/
def assign (paste row : models.Paste) : models.Paste :=
  { ID := if paste.ID = "" then row.ID else paste.ID,
    Content := if paste.Content = none then row.Content else paste.Content,
    IsPersistent := if paste.IsPersistent = false then row.IsPersistent else paste.IsPersistent,
    ExpiredAt := if paste.ExpiredAt = time.zero then row.ExpiredAt else paste.ExpiredAt }

/-- The statement `db.Model(&paste).Updates(paste)`: the condition is the primary key of the
model; with a zero primary key gorm refuses the statement for lack of a condition.  A
statement that matches no row is not an error. -/
def Update (c : concreteRepository) (paste : models.Paste) : Ret models.Paste :=
  if paste.ID = "" then
    { value := paste, err := some gorm.Error.ErrMissingWhereClause, state := c }
  else
    { value := paste, err := none,
      state := { db := c.db.map (fun row => if row.ID == paste.ID then assign paste row else row) } }

/-- Whether the condition `expired_at < ? AND is_persistent = ?`, with the arguments `now` and
`false`, holds for the row: the database compares the texts bound for the two times. -/
def expired (now : time.Time) (row : models.Paste) : Bool :=
  sqlite.lt (sqlite.bind row.ExpiredAt) (sqlite.bind now) && (row.IsPersistent == false)

/-- The statement `DELETE FROM pastes WHERE expired_at < now AND is_persistent = false`: the
rows that remain are those the condition does not hold for. -/
def CleanExpired (c : concreteRepository) (now : time.Time) : Ret Unit :=
  let rows := c.db.filter (fun row => !(expired now row))
  { value := (), err := none, state := { db := rows } }

end repository.paste

/-! ## Package `repository/token` -/

namespace repository.token

structure Options where
  Token : String
deriving DecidableEq, Repr

/-- The receiver: `db` is table `tokens`. -/
structure concreteRepository where
  db : List models.Token
deriving DecidableEq, Repr

abbrev Ret (α : Type) := Result gorm.Error α concreteRepository

/-- The constructor `New(db, opts)`, on the rows table `tokens` holds when it is called. -/
def New (db : List models.Token) (opts : Options) : Ret Unit :=
  let count := db.length
  if count = 0 then
    { value := (), err := none, state := { db := db ++ [{ Token := opts.Token }] } }
  else
    { value := (), err := none, state := { db := db } }

def Create (r : concreteRepository) (token : models.Token) : Ret models.Token :=
  if r.db.any (fun row => row.Token == token.Token) then
    { value := token, err := some gorm.Error.ErrDuplicatedKey, state := r }
  else
    { value := token, err := none, state := { db := r.db ++ [token] } }

def List (r : concreteRepository) : Ret (List models.Token) :=
  { value := r.db, err := none, state := r }

def Delete (r : concreteRepository) (token : String) : Ret Unit :=
  let RowsAffected := r.db.countP (fun row => row.Token == token)
  if RowsAffected = 0 then
    { value := (), err := some gorm.Error.ErrRecordNotFound, state := r }
  else
    { value := (), err := none, state := { db := r.db.filter (fun row => !(row.Token == token)) } }

def Exists (r : concreteRepository) (token : String) : Ret Bool :=
  let count := r.db.countP (fun row => row.Token == token)
  { value := decide (count > 0), err := none, state := r }

end repository.token

/-! ## Package `service/paste` -/

namespace service.paste

/-- The error values of the package, and `gorm`, an error of the storage layer returned to
the caller as it is. -/
inductive Error where
  | ErrNotFound
  | ErrExists
  | ErrTooBig
  | ErrUnauthorized
  | ErrInvalidRequest
  | gorm (e : gorm.Error)
deriving DecidableEq, Repr

structure Options where
  TTL : time.Duration
  Limit : Nat
deriving DecidableEq, Repr

structure concreteService where
  pasteRepository : repository.paste.concreteRepository
  tokenRepository : repository.token.concreteRepository
  options : Options
deriving DecidableEq, Repr

abbrev Ret (α : Type) := Result Error α concreteService

def New (pasteRepository : repository.paste.concreteRepository)
    (tokenRepository : repository.token.concreteRepository) (options : Options) : concreteService :=
  { pasteRepository := pasteRepository, tokenRepository := tokenRepository, options := options }

def TTL (c : concreteService) : time.Duration := c.options.TTL

def Limit (c : concreteService) : Nat := c.options.Limit

def CleanExpired (c : concreteService) (now : time.Time) : Ret Unit :=
  let r := repository.paste.CleanExpired c.pasteRepository now
  { value := (), err := r.err.map Error.gorm, state := { c with pasteRepository := r.state } }

def CreatePersistent (c : concreteService) (token name : String) (content : Option (List UInt8))
    (userTTL : time.Duration) (now : time.Time) : Ret models.Paste :=
  let r := repository.token.Exists c.tokenRepository token
  if r.value = false then
    { value := models.Paste.zero, err := some Error.ErrUnauthorized, state := c }
  else
    match r.err with
    | some err => { value := models.Paste.zero, err := some (Error.gorm err), state := c }
    | none =>
      if len content < 1 then
        { value := models.Paste.zero, err := some Error.ErrInvalidRequest, state := c }
      else
        let expires := time.Date 9999 12 31 23 59 59 0
        let expires := if userTTL > 0 then time.Add now userTTL else expires
        let paste : models.Paste :=
          { ID := name, Content := content, IsPersistent := true, ExpiredAt := expires }
        let w := repository.paste.Create c.pasteRepository paste
        let c := { c with pasteRepository := w.state }
        match w.err with
        | some err =>
          let err := if err = gorm.Error.ErrDuplicatedKey then Error.ErrExists else Error.gorm err
          { value := models.Paste.zero, err := some err, state := c }
        | none => { value := w.value, err := none, state := c }

/-- The method `CreateRegular`; `id` is the value of `nanoid.Must(8)`. -/
def CreateRegular (c : concreteService) (token : String) (content : Option (List UInt8))
    (userTTL : time.Duration) (id : String) (now : time.Time) : Ret models.Paste :=
  let r := repository.token.Exists c.tokenRepository token
  let authorized := r.value
  match r.err with
  | some err => { value := models.Paste.zero, err := some (Error.gorm err), state := c }
  | none =>
    if token ≠ "" ∧ authorized = false then
      { value := models.Paste.zero, err := some Error.ErrUnauthorized, state := c }
    else if (len content : Int) > int c.options.Limit ∧ authorized = false then
      { value := models.Paste.zero, err := some Error.ErrTooBig, state := c }
    else if len content < 1 then
      { value := models.Paste.zero, err := some Error.ErrInvalidRequest, state := c }
    else
      let c := if c.options.TTL = 0 then { c with options := { c.options with TTL := time.Hour * 24 } } else c
      let ttl := if authorized then userTTL else min userTTL c.options.TTL
      let paste : models.Paste :=
        { ID := id, Content := content, IsPersistent := false, ExpiredAt := time.Add now ttl }
      let w := repository.paste.Create c.pasteRepository paste
      let c := { c with pasteRepository := w.state }
      match w.err with
      | some err =>
        let err := if err = gorm.Error.ErrDuplicatedKey then Error.ErrExists else Error.gorm err
        { value := models.Paste.zero, err := some err, state := c }
      | none => { value := w.value, err := none, state := c }

/-- The method `CreateToken`; `nt` is the value of `nanoid.Must(32)`. -/
def CreateToken (c : concreteService) (token : String) (nt : String) : Ret String :=
  let r := repository.token.Exists c.tokenRepository token
  if r.value = false then
    { value := "", err := some Error.ErrUnauthorized, state := c }
  else
    match r.err with
    | some err => { value := "", err := some (Error.gorm err), state := c }
    | none =>
      let w := repository.token.Create c.tokenRepository { Token := nt }
      let c := { c with tokenRepository := w.state }
      match w.err with
      | some err => { value := "", err := some (Error.gorm err), state := c }
      | none => { value := w.value.Token, err := none, state := c }

def Delete (c : concreteService) (token id : String) : Ret models.Paste :=
  let r := repository.token.Exists c.tokenRepository token
  if r.value = false then
    { value := models.Paste.zero, err := some Error.ErrUnauthorized, state := c }
  else
    match r.err with
    | some err => { value := models.Paste.zero, err := some (Error.gorm err), state := c }
    | none =>
      let w := repository.paste.Delete c.pasteRepository id
      let c := { c with pasteRepository := w.state }
      match w.err with
      | some err =>
        let err := if err = gorm.Error.ErrRecordNotFound then Error.ErrNotFound else Error.gorm err
        { value := models.Paste.zero, err := some err, state := c }
      | none => { value := w.value, err := none, state := c }

def Get (c : concreteService) (id : String) : Ret models.Paste :=
  let w := repository.paste.GetByID c.pasteRepository id
  let c := { c with pasteRepository := w.state }
  match w.err with
  | some err =>
    if err = gorm.Error.ErrRecordNotFound then
      { value := models.Paste.zero, err := some Error.ErrNotFound, state := c }
    else
      { value := models.Paste.zero, err := some (Error.gorm err), state := c }
  | none => { value := w.value, err := none, state := c }

def RevokeToken (c : concreteService) (accessToken toRevokeToken : String) : Ret Unit :=
  let r := repository.token.Exists c.tokenRepository accessToken
  if r.value = false then
    { value := (), err := some Error.ErrUnauthorized, state := c }
  else
    match r.err with
    | some err => { value := (), err := some (Error.gorm err), state := c }
    | none =>
      let w := repository.token.Delete c.tokenRepository toRevokeToken
      let c := { c with tokenRepository := w.state }
      match w.err with
      | some err =>
        if err = gorm.Error.ErrRecordNotFound then
          { value := (), err := some Error.ErrNotFound, state := c }
        else
          { value := (), err := some (Error.gorm err), state := c }
      | none => { value := (), err := none, state := c }

def Update (c : concreteService) (token : String) (paste : models.Paste) : Ret models.Paste :=
  let r := repository.token.Exists c.tokenRepository token
  if r.value = false then
    { value := models.Paste.zero, err := some Error.ErrUnauthorized, state := c }
  else
    match r.err with
    | some err => { value := models.Paste.zero, err := some (Error.gorm err), state := c }
    | none =>
      let w := repository.paste.Update c.pasteRepository paste
      let c := { c with pasteRepository := w.state }
      match w.err with
      | some err =>
        let err := if err = gorm.Error.ErrRecordNotFound then Error.ErrNotFound else Error.gorm err
        { value := models.Paste.zero, err := some err, state := c }
      | none => { value := w.value, err := none, state := c }

end service.paste

/-! ## Definitions used to state the properties -/

namespace service.paste

/-- The default TTL `CreateRegular` works with (the assignment to `c.options.TTL`): a
configured zero is replaced by one day. -/
def defaultTTL (o : Options) : time.Duration := if o.TTL = 0 then time.Hour * 24 else o.TTL

/-- The paste `CreateRegular` hands to the paste table once the caller passed the checks. -/
def regularPaste (c : concreteService) (token : String) (content : Option (List UInt8))
    (userTTL : time.Duration) (id : String) (now : time.Time) : models.Paste :=
  { ID := id, Content := content, IsPersistent := false,
    ExpiredAt := time.Add now
      (if (repository.token.Exists c.tokenRepository token).value = true then userTTL
        else min userTTL (defaultTTL c.options)) }

/-- The paste `CreatePersistent` hands to the paste table once the caller passed the checks. -/
def persistentPaste (name : String) (content : Option (List UInt8)) (userTTL : time.Duration)
    (now : time.Time) : models.Paste :=
  { ID := name, Content := content, IsPersistent := true,
    ExpiredAt := if userTTL > 0 then time.Add now userTTL else time.Date 9999 12 31 23 59 59 0 }

/-- A service on an empty paste table, with the one token of the default configuration, the
default TTL of one day and a size limit of one byte. -/
def sample : concreteService :=
  New { db := [] } { db := [{ Token := "verycooltokensir" }] } { TTL := time.Hour * 24, Limit := 1 }

/-- The service `sample` configured with a default TTL of zero. -/
def sampleZeroTTL : concreteService :=
  { sample with options := { TTL := 0, Limit := 1024 * 1024 } }

/-- The location `America/New_York` around 3 November 2024: four hours west of UTC until
06:00:00 UTC of that day (Unix time 1730613600), five hours west from then on. -/
def newYork : time.Location := { offset := -14400, tx := [(1730613600, -18000)] }

end service.paste

/-! ## Sequences of calls -/

/-- A call of a method of the token repository, with its arguments. -/
inductive TokenCall where
  | Create (token : models.Token)
  | List
  | Delete (token : String)
  | Exists (token : String)
deriving DecidableEq, Repr

/-- The token repository after the call. -/
def runTokenCall (r : repository.token.concreteRepository) (call : TokenCall) :
    repository.token.concreteRepository :=
  match call with
  | TokenCall.Create token => (repository.token.Create r token).state
  | TokenCall.List => (repository.token.List r).state
  | TokenCall.Delete token => (repository.token.Delete r token).state
  | TokenCall.Exists token => (repository.token.Exists r token).state

/-- The token repository after the calls, made one after the other. -/
def runTokenCalls (r : repository.token.concreteRepository) (calls : List TokenCall) :
    repository.token.concreteRepository :=
  calls.foldl runTokenCall r

namespace service.paste

/-- A call of a method of the service, with its arguments and with the clock reading and the
random identifier the method draws, where it draws one. -/
inductive Call where
  | CreateRegular (token : String) (content : Option (List UInt8)) (userTTL : time.Duration)
      (id : String) (now : time.Time)
  | CreatePersistent (token name : String) (content : Option (List UInt8))
      (userTTL : time.Duration) (now : time.Time)
  | Get (id : String)
  | Update (token : String) (paste : models.Paste)
  | Delete (token id : String)
  | CleanExpired (now : time.Time)
  | CreateToken (token nt : String)
  | RevokeToken (accessToken toRevokeToken : String)
deriving DecidableEq, Repr

/-- The service after the call. -/
def Call.run (c : concreteService) (call : Call) : concreteService :=
  match call with
  | Call.CreateRegular token content userTTL id now =>
    (service.paste.CreateRegular c token content userTTL id now).state
  | Call.CreatePersistent token name content userTTL now =>
    (service.paste.CreatePersistent c token name content userTTL now).state
  | Call.Get id => (service.paste.Get c id).state
  | Call.Update token paste => (service.paste.Update c token paste).state
  | Call.Delete token id => (service.paste.Delete c token id).state
  | Call.CleanExpired now => (service.paste.CleanExpired c now).state
  | Call.CreateToken token nt => (service.paste.CreateToken c token nt).state
  | Call.RevokeToken accessToken toRevokeToken =>
    (service.paste.RevokeToken c accessToken toRevokeToken).state

/-- The service after the calls, made one after the other. -/
def runAll (c : concreteService) (calls : List Call) : concreteService :=
  calls.foldl Call.run c

end service.paste

/-! ## Facts about the storage layer -/

theorem int_le (u : Nat) : int u ≤ (u : Int) := by
  have h := Nat.mod_le u (2 ^ 64)
  simp only [int]
  split <;> omega

theorem int_eq_of_lt (u : Nat) (h : u < 2 ^ 63) : int u = (u : Int) := by
  have h1 : u % 2 ^ 64 = u := Nat.mod_eq_of_lt (by omega)
  simp only [int, h1]
  rw [if_pos h]

namespace repository.token

@[simp] theorem Exists_err (r : concreteRepository) (token : String) :
    (Exists r token).err = none := rfl

@[simp] theorem Exists_state (r : concreteRepository) (token : String) :
    (Exists r token).state = r := rfl

theorem Exists_value_iff (r : concreteRepository) (token : String) :
    (Exists r token).value = true ↔ ∃ row ∈ r.db, row.Token = token := by
  simp [Exists, List.countP_pos_iff]

theorem Exists_value_false_iff (r : concreteRepository) (token : String) :
    (Exists r token).value = false ↔ ∀ row ∈ r.db, row.Token ≠ token := by
  simp [Exists, List.countP_eq_zero]

end repository.token

namespace repository.paste

theorem Create_err_none_iff (c : concreteRepository) (paste : models.Paste) :
    (Create c paste).err = none ↔ ∀ row ∈ c.db, row.ID ≠ paste.ID := by
  unfold Create
  split
  · rename_i h
    simp only [List.any_eq_true, beq_iff_eq] at h
    obtain ⟨row, hrow, hid⟩ := h
    simp only [reduceCtorEq, false_iff, not_forall]
    exact ⟨row, hrow, fun hne => hne hid⟩
  · rename_i h
    simp only [List.any_eq_true, beq_iff_eq, not_exists, not_and] at h
    simpa using h

theorem Create_of_fresh (c : concreteRepository) (paste : models.Paste)
    (hfresh : ∀ row ∈ c.db, row.ID ≠ paste.ID) :
    Create c paste = { value := paste, err := none, state := { db := c.db ++ [paste] } } := by
  have h : c.db.any (fun row => row.ID == paste.ID) = false := by
    simpa [List.any_eq_false] using hfresh
  simp only [Create, h]
  rfl

theorem Create_of_present (c : concreteRepository) (paste : models.Paste)
    (hrow : ∃ row ∈ c.db, row.ID = paste.ID) :
    Create c paste =
      { value := paste, err := some gorm.Error.ErrDuplicatedKey, state := c } := by
  have h : c.db.any (fun row => row.ID == paste.ID) = true := by
    simpa [List.any_eq_true] using hrow
  simp only [Create, h, if_true]

theorem GetByID_append_of_fresh (c : concreteRepository) (paste : models.Paste)
    (hfresh : ∀ row ∈ c.db, row.ID ≠ paste.ID) :
    GetByID { db := c.db ++ [paste] } paste.ID =
      { value := paste, err := none, state := { db := c.db ++ [paste] } } := by
  have h1 : c.db.find? (fun row => row.ID == paste.ID) = none := by
    simpa [List.find?_eq_none] using hfresh
  have h2 : (c.db ++ [paste]).find? (fun row => row.ID == paste.ID) = some paste := by
    simp [List.find?_append, h1]
  simp only [GetByID, h2]

theorem Create_err_cases (c : concreteRepository) (paste : models.Paste) :
    ((Create c paste).err = none ∧ (Create c paste).value = paste ∧
        (Create c paste).state = { db := c.db ++ [paste] }) ∨
    ((Create c paste).err = some gorm.Error.ErrDuplicatedKey ∧ (Create c paste).value = paste ∧
        (Create c paste).state = c) := by
  unfold Create
  split <;> simp

end repository.paste

/-! ## Facts about the service -/

namespace service.paste

theorem CreateRegular_of_unknown_token (c : concreteService) (token : String)
    (content : Option (List UInt8)) (userTTL : time.Duration) (id : String) (now : time.Time)
    (ht : token ≠ "") (hex : (repository.token.Exists c.tokenRepository token).value = false) :
    CreateRegular c token content userTTL id now =
      { value := models.Paste.zero, err := some Error.ErrUnauthorized, state := c } := by
  simp [CreateRegular, hex, ht]

theorem CreateRegular_of_too_big (c : concreteService)
    (content : Option (List UInt8)) (userTTL : time.Duration) (id : String) (now : time.Time)
    (hex : (repository.token.Exists c.tokenRepository "").value = false)
    (hbig : (len content : Int) > int c.options.Limit) :
    CreateRegular c "" content userTTL id now =
      { value := models.Paste.zero, err := some Error.ErrTooBig, state := c } := by
  simp [CreateRegular, hex, hbig]

theorem CreateRegular_of_empty (c : concreteService) (token : String)
    (content : Option (List UInt8)) (userTTL : time.Duration) (id : String) (now : time.Time)
    (hgate : token = "" ∨ (repository.token.Exists c.tokenRepository token).value = true)
    (hsize : (repository.token.Exists c.tokenRepository token).value = true ∨
      (len content : Int) ≤ int c.options.Limit)
    (hlen : len content < 1) :
    CreateRegular c token content userTTL id now =
      { value := models.Paste.zero, err := some Error.ErrInvalidRequest, state := c } := by
  have h1 : ¬ (token ≠ "" ∧ (repository.token.Exists c.tokenRepository token).value = false) := by
    rintro ⟨ha, hb⟩
    rcases hgate with h | h
    · exact ha h
    · rw [hb] at h; exact Bool.noConfusion h
  have h2 : ¬ ((len content : Int) > int c.options.Limit ∧
      (repository.token.Exists c.tokenRepository token).value = false) := by
    rintro ⟨ha, hb⟩
    rcases hsize with h | h
    · rw [hb] at h; exact Bool.noConfusion h
    · omega
  simp only [CreateRegular, repository.token.Exists_err, h1, h2, hlen, if_false, if_true]

theorem CreateRegular_of_checks (c : concreteService) (token : String)
    (content : Option (List UInt8)) (userTTL : time.Duration) (id : String) (now : time.Time)
    (hgate : token = "" ∨ (repository.token.Exists c.tokenRepository token).value = true)
    (hsize : (repository.token.Exists c.tokenRepository token).value = true ∨
      (len content : Int) ≤ int c.options.Limit)
    (hlen : 1 ≤ len content) :
    CreateRegular c token content userTTL id now =
      { value :=
          if (repository.paste.Create c.pasteRepository
              (regularPaste c token content userTTL id now)).err = none
          then regularPaste c token content userTTL id now else models.Paste.zero,
        err := (repository.paste.Create c.pasteRepository
            (regularPaste c token content userTTL id now)).err.map
          (fun e => if e = gorm.Error.ErrDuplicatedKey then Error.ErrExists else Error.gorm e),
        state :=
          { pasteRepository := (repository.paste.Create c.pasteRepository
              (regularPaste c token content userTTL id now)).state,
            tokenRepository := c.tokenRepository,
            options := { TTL := defaultTTL c.options, Limit := c.options.Limit } } } := by
  have hnot : ¬ len content < 1 := by omega
  have h1 : ¬ (token ≠ "" ∧ (repository.token.Exists c.tokenRepository token).value = false) := by
    rintro ⟨ha, hb⟩
    rcases hgate with h | h
    · exact ha h
    · rw [hb] at h; exact Bool.noConfusion h
  have h2 : ¬ ((len content : Int) > int c.options.Limit ∧
      (repository.token.Exists c.tokenRepository token).value = false) := by
    rintro ⟨ha, hb⟩
    rcases hsize with h | h
    · rw [hb] at h; exact Bool.noConfusion h
    · omega
  simp only [CreateRegular, repository.token.Exists_err, h1, h2, hnot, if_false]
  by_cases hT : c.options.TTL = 0
  · simp only [hT, if_true, regularPaste, defaultTTL]
    rcases repository.paste.Create_err_cases c.pasteRepository
      { ID := id, Content := content, IsPersistent := false,
        ExpiredAt := time.Add now
          (if (repository.token.Exists c.tokenRepository token).value = true then userTTL
            else min userTTL (time.Hour * 24)) } with ⟨e1, e2, e3⟩ | ⟨e1, e2, e3⟩
    · simp only [e1, e2, e3, Option.map_none', if_true]
    · simp only [e1, e2, e3, Option.map_some', if_true, reduceCtorEq, if_false]
  · simp only [hT, if_false, regularPaste, defaultTTL]
    rcases repository.paste.Create_err_cases c.pasteRepository
      { ID := id, Content := content, IsPersistent := false,
        ExpiredAt := time.Add now
          (if (repository.token.Exists c.tokenRepository token).value = true then userTTL
            else min userTTL c.options.TTL) } with ⟨e1, e2, e3⟩ | ⟨e1, e2, e3⟩
    · simp only [e1, e2, e3, Option.map_none', if_true]
    · simp only [e1, e2, e3, Option.map_some', if_true, reduceCtorEq, if_false]

theorem CreateRegular_err_none (c : concreteService) (token : String)
    (content : Option (List UInt8)) (userTTL : time.Duration) (id : String) (now : time.Time)
    (hok : (CreateRegular c token content userTTL id now).err = none) :
    (token = "" ∨ (repository.token.Exists c.tokenRepository token).value = true) ∧
    ((repository.token.Exists c.tokenRepository token).value = true ∨
      (len content : Int) ≤ int c.options.Limit) ∧
    1 ≤ len content ∧
    (repository.paste.Create c.pasteRepository
      (regularPaste c token content userTTL id now)).err = none := by
  have hgate : token = "" ∨ (repository.token.Exists c.tokenRepository token).value = true := by
    by_cases ht : token = ""
    · exact Or.inl ht
    · by_cases hex : (repository.token.Exists c.tokenRepository token).value = true
      · exact Or.inr hex
      · rw [CreateRegular_of_unknown_token c token content userTTL id now ht
          (Bool.eq_false_iff.mpr hex)] at hok
        exact Option.noConfusion hok
  have hsize : (repository.token.Exists c.tokenRepository token).value = true ∨
      (len content : Int) ≤ int c.options.Limit := by
    by_cases hex : (repository.token.Exists c.tokenRepository token).value = true
    · exact Or.inl hex
    · by_cases hbig : (len content : Int) > int c.options.Limit
      · rcases hgate with ht | h
        · subst ht
          rw [CreateRegular_of_too_big c content userTTL id now (Bool.eq_false_iff.mpr hex)
            hbig] at hok
          exact Option.noConfusion hok
        · exact absurd h hex
      · exact Or.inr (by omega)
  have hlen : 1 ≤ len content := by
    by_cases hlt : len content < 1
    · rw [CreateRegular_of_empty c token content userTTL id now hgate hsize hlt] at hok
      exact Option.noConfusion hok
    · omega
  refine ⟨hgate, hsize, hlen, ?_⟩
  rw [CreateRegular_of_checks c token content userTTL id now hgate hsize hlen] at hok
  cases hc : (repository.paste.Create c.pasteRepository
      (regularPaste c token content userTTL id now)).err with
  | none => rfl
  | some e =>
    rw [hc] at hok
    exact Option.noConfusion hok

theorem CreatePersistent_of_unknown_token (c : concreteService) (token name : String)
    (content : Option (List UInt8)) (userTTL : time.Duration) (now : time.Time)
    (hex : (repository.token.Exists c.tokenRepository token).value = false) :
    CreatePersistent c token name content userTTL now =
      { value := models.Paste.zero, err := some Error.ErrUnauthorized, state := c } := by
  simp only [CreatePersistent, hex, if_true]

theorem CreatePersistent_of_empty (c : concreteService) (token name : String)
    (content : Option (List UInt8)) (userTTL : time.Duration) (now : time.Time)
    (hex : (repository.token.Exists c.tokenRepository token).value = true)
    (hlen : len content < 1) :
    CreatePersistent c token name content userTTL now =
      { value := models.Paste.zero, err := some Error.ErrInvalidRequest, state := c } := by
  simp only [CreatePersistent, hex, repository.token.Exists_err, hlen, if_true]
  simp

theorem CreatePersistent_of_checks (c : concreteService) (token name : String)
    (content : Option (List UInt8)) (userTTL : time.Duration) (now : time.Time)
    (hex : (repository.token.Exists c.tokenRepository token).value = true)
    (hlen : 1 ≤ len content) :
    CreatePersistent c token name content userTTL now =
      { value :=
          if (repository.paste.Create c.pasteRepository
              (persistentPaste name content userTTL now)).err = none
          then persistentPaste name content userTTL now else models.Paste.zero,
        err := (repository.paste.Create c.pasteRepository
            (persistentPaste name content userTTL now)).err.map
          (fun e => if e = gorm.Error.ErrDuplicatedKey then Error.ErrExists else Error.gorm e),
        state :=
          { pasteRepository := (repository.paste.Create c.pasteRepository
              (persistentPaste name content userTTL now)).state,
            tokenRepository := c.tokenRepository,
            options := c.options } } := by
  have hnot : ¬ len content < 1 := by omega
  simp only [CreatePersistent, hex, repository.token.Exists_err, hnot, if_false, persistentPaste]
  rcases repository.paste.Create_err_cases c.pasteRepository
    { ID := name, Content := content, IsPersistent := true,
      ExpiredAt := if userTTL > 0 then time.Add now userTTL else time.Date 9999 12 31 23 59 59 0 }
    with ⟨e1, e2, e3⟩ | ⟨e1, e2, e3⟩
  · simp [e1, e2, e3]
  · simp [e1, e2, e3]

theorem CreatePersistent_err_none (c : concreteService) (token name : String)
    (content : Option (List UInt8)) (userTTL : time.Duration) (now : time.Time)
    (hok : (CreatePersistent c token name content userTTL now).err = none) :
    (repository.token.Exists c.tokenRepository token).value = true ∧ 1 ≤ len content ∧
    (repository.paste.Create c.pasteRepository
      (persistentPaste name content userTTL now)).err = none := by
  have hex : (repository.token.Exists c.tokenRepository token).value = true := by
    by_cases hex : (repository.token.Exists c.tokenRepository token).value = true
    · exact hex
    · rw [CreatePersistent_of_unknown_token c token name content userTTL now
        (Bool.eq_false_iff.mpr hex)] at hok
      exact Option.noConfusion hok
  have hlen : 1 ≤ len content := by
    by_cases hlt : len content < 1
    · rw [CreatePersistent_of_empty c token name content userTTL now hex hlt] at hok
      exact Option.noConfusion hok
    · omega
  refine ⟨hex, hlen, ?_⟩
  rw [CreatePersistent_of_checks c token name content userTTL now hex hlen] at hok
  cases hc : (repository.paste.Create c.pasteRepository
      (persistentPaste name content userTTL now)).err with
  | none => rfl
  | some e =>
    rw [hc] at hok
    exact Option.noConfusion hok

theorem Update_of_unknown_token (c : concreteService) (token : String) (paste : models.Paste)
    (hex : (repository.token.Exists c.tokenRepository token).value = false) :
    Update c token paste =
      { value := models.Paste.zero, err := some Error.ErrUnauthorized, state := c } := by
  simp only [Update, hex, if_true]

theorem Delete_of_unknown_token (c : concreteService) (token id : String)
    (hex : (repository.token.Exists c.tokenRepository token).value = false) :
    Delete c token id =
      { value := models.Paste.zero, err := some Error.ErrUnauthorized, state := c } := by
  simp only [Delete, hex, if_true]

theorem CreateToken_of_unknown_token (c : concreteService) (token nt : String)
    (hex : (repository.token.Exists c.tokenRepository token).value = false) :
    CreateToken c token nt = { value := "", err := some Error.ErrUnauthorized, state := c } := by
  simp only [CreateToken, hex, if_true]

theorem RevokeToken_of_unknown_token (c : concreteService) (accessToken toRevokeToken : String)
    (hex : (repository.token.Exists c.tokenRepository accessToken).value = false) :
    RevokeToken c accessToken toRevokeToken =
      { value := (), err := some Error.ErrUnauthorized, state := c } := by
  simp only [RevokeToken, hex, if_true]

end service.paste

namespace service.paste

theorem CreateRegular_tokenRepository (c : concreteService) (token : String)
    (content : Option (List UInt8)) (userTTL : time.Duration) (id : String) (now : time.Time) :
    (CreateRegular c token content userTTL id now).state.tokenRepository = c.tokenRepository := by
  by_cases hgate : token = "" ∨ (repository.token.Exists c.tokenRepository token).value = true
  · by_cases hsize : (repository.token.Exists c.tokenRepository token).value = true ∨
        (len content : Int) ≤ int c.options.Limit
    · by_cases hlen : 1 ≤ len content
      · rw [CreateRegular_of_checks c token content userTTL id now hgate hsize hlen]
      · rw [CreateRegular_of_empty c token content userTTL id now hgate hsize (by omega)]
    · have hex : (repository.token.Exists c.tokenRepository token).value = false :=
        Bool.eq_false_iff.mpr (fun h => hsize (Or.inl h))
      have ht : token = "" := hgate.resolve_right (fun h => hsize (Or.inl h))
      subst ht
      rw [CreateRegular_of_too_big c content userTTL id now hex
        (by have := fun h => hsize (Or.inr h); omega)]
  · have hex : (repository.token.Exists c.tokenRepository token).value = false :=
      Bool.eq_false_iff.mpr (fun h => hgate (Or.inr h))
    rw [CreateRegular_of_unknown_token c token content userTTL id now
      (fun h => hgate (Or.inl h)) hex]

theorem CreatePersistent_tokenRepository (c : concreteService) (token name : String)
    (content : Option (List UInt8)) (userTTL : time.Duration) (now : time.Time) :
    (CreatePersistent c token name content userTTL now).state.tokenRepository
      = c.tokenRepository := by
  by_cases hex : (repository.token.Exists c.tokenRepository token).value = true
  · by_cases hlen : 1 ≤ len content
    · rw [CreatePersistent_of_checks c token name content userTTL now hex hlen]
    · rw [CreatePersistent_of_empty c token name content userTTL now hex (by omega)]
  · rw [CreatePersistent_of_unknown_token c token name content userTTL now
      (Bool.eq_false_iff.mpr hex)]

theorem Get_tokenRepository (c : concreteService) (id : String) :
    (Get c id).state.tokenRepository = c.tokenRepository := by
  unfold Get
  simp only
  split
  · split <;> rfl
  · rfl

theorem Update_tokenRepository (c : concreteService) (token : String) (paste : models.Paste) :
    (Update c token paste).state.tokenRepository = c.tokenRepository := by
  unfold Update
  simp only
  split
  · rfl
  · split
    · rfl
    · split <;> rfl

theorem Delete_tokenRepository (c : concreteService) (token id : String) :
    (Delete c token id).state.tokenRepository = c.tokenRepository := by
  unfold Delete
  simp only
  split
  · rfl
  · split
    · rfl
    · split <;> rfl

theorem CleanExpired_tokenRepository (c : concreteService) (now : time.Time) :
    (CleanExpired c now).state.tokenRepository = c.tokenRepository := rfl

end service.paste

namespace repository.token

theorem Delete_err_none (r : concreteRepository) (token : String)
    (hok : (Delete r token).err = none) :
    (Delete r token).state = { db := r.db.filter (fun row => !(row.Token == token)) } := by
  unfold Delete at hok ⊢
  simp only at hok ⊢
  split
  · rename_i h
    rw [if_pos h] at hok
    exact Option.noConfusion hok
  · rfl

theorem Delete_db_subset (r : concreteRepository) (token : String) (row : models.Token)
    (hrow : row ∈ (Delete r token).state.db) : row ∈ r.db := by
  unfold Delete at hrow
  simp only at hrow
  split at hrow
  · exact hrow
  · exact (List.mem_filter.mp hrow).1

theorem Create_db_subset (r : concreteRepository) (token row : models.Token)
    (hrow : row ∈ (Create r token).state.db) : row ∈ r.db ∨ row = token := by
  unfold Create at hrow
  split at hrow
  · exact Or.inl hrow
  · simpa using hrow

end repository.token

namespace service.paste

theorem RevokeToken_err_none (c : concreteService) (accessToken toRevokeToken : String)
    (hok : (RevokeToken c accessToken toRevokeToken).err = none) :
    (repository.token.Exists c.tokenRepository accessToken).value = true ∧
    (RevokeToken c accessToken toRevokeToken).state =
      { c with tokenRepository :=
          { db := c.tokenRepository.db.filter (fun row => !(row.Token == toRevokeToken)) } } := by
  by_cases hex : (repository.token.Exists c.tokenRepository accessToken).value = true
  · refine ⟨hex, ?_⟩
    cases hd : (repository.token.Delete c.tokenRepository toRevokeToken).err with
    | none =>
      have hs := repository.token.Delete_err_none c.tokenRepository toRevokeToken hd
      simp [RevokeToken, hex, hd, hs]
    | some e =>
      simp only [RevokeToken, hex, repository.token.Exists_err, hd] at hok
      revert hok
      simp only [Bool.true_eq_false, if_false]
      split <;> exact fun h => Option.noConfusion h
  · rw [RevokeToken_of_unknown_token c accessToken toRevokeToken (Bool.eq_false_iff.mpr hex)]
      at hok
    exact Option.noConfusion hok

theorem RevokeToken_tokens_subset (c : concreteService) (accessToken toRevokeToken : String)
    (row : models.Token)
    (hrow : row ∈ (RevokeToken c accessToken toRevokeToken).state.tokenRepository.db) :
    row ∈ c.tokenRepository.db := by
  unfold RevokeToken at hrow
  simp only at hrow
  split at hrow
  · exact hrow
  · split at hrow
    · exact hrow
    · have h := repository.token.Delete_db_subset c.tokenRepository toRevokeToken row
      split at hrow
      · split at hrow <;> exact h hrow
      · exact h hrow

theorem CreateToken_tokens_subset (c : concreteService) (token nt : String) (row : models.Token)
    (hrow : row ∈ (CreateToken c token nt).state.tokenRepository.db) :
    row ∈ c.tokenRepository.db ∨ row.Token = nt := by
  unfold CreateToken at hrow
  simp only at hrow
  split at hrow
  · exact Or.inl hrow
  · split at hrow
    · exact Or.inl hrow
    · have h := repository.token.Create_db_subset c.tokenRepository { Token := nt } row
      split at hrow
      · rcases h hrow with h1 | h1
        · exact Or.inl h1
        · exact Or.inr (by rw [h1])
      · rcases h hrow with h1 | h1
        · exact Or.inl h1
        · exact Or.inr (by rw [h1])

/-- A call adds a row to the token table only when it is a `CreateToken` that draws the
token of that row. -/
theorem Call.run_tokens_subset (c : concreteService) (call : Call) (row : models.Token)
    (hrow : row ∈ (Call.run c call).tokenRepository.db) :
    row ∈ c.tokenRepository.db ∨ ∃ token, call = Call.CreateToken token row.Token := by
  cases call with
  | CreateRegular token content userTTL id now =>
    simp only [Call.run, CreateRegular_tokenRepository] at hrow
    exact Or.inl hrow
  | CreatePersistent token name content userTTL now =>
    simp only [Call.run, CreatePersistent_tokenRepository] at hrow
    exact Or.inl hrow
  | Get id =>
    simp only [Call.run, Get_tokenRepository] at hrow
    exact Or.inl hrow
  | Update token paste =>
    simp only [Call.run, Update_tokenRepository] at hrow
    exact Or.inl hrow
  | Delete token id =>
    simp only [Call.run, Delete_tokenRepository] at hrow
    exact Or.inl hrow
  | CleanExpired now =>
    simp only [Call.run, CleanExpired_tokenRepository] at hrow
    exact Or.inl hrow
  | CreateToken token nt =>
    rcases CreateToken_tokens_subset c token nt row hrow with h | h
    · exact Or.inl h
    · exact Or.inr ⟨token, by rw [h]⟩
  | RevokeToken accessToken toRevokeToken =>
    exact Or.inl (RevokeToken_tokens_subset c accessToken toRevokeToken row hrow)

/-- A token the table does not hold stays out of it through every sequence of calls in which
no `CreateToken` draws it. -/
theorem runAll_Exists_false (t : String) (calls : List Call)
    (hmint : ∀ token, Call.CreateToken token t ∉ calls) (c : concreteService)
    (hex : (repository.token.Exists c.tokenRepository t).value = false) :
    (repository.token.Exists (runAll c calls).tokenRepository t).value = false := by
  induction calls generalizing c with
  | nil => exact hex
  | cons call rest ih =>
    have hstep : (repository.token.Exists (Call.run c call).tokenRepository t).value = false := by
      rw [repository.token.Exists_value_false_iff] at hex ⊢
      intro row hrow hrt
      rcases Call.run_tokens_subset c call row hrow with h | ⟨token, h⟩
      · exact hex row h hrt
      · rw [hrt] at h
        exact hmint token (by rw [h]; exact List.mem_cons_self _ _)
    exact ih (fun token hmem => hmint token (List.mem_cons_of_mem _ hmem)) (Call.run c call) hstep

end service.paste

/-- A call adds a row to the token table only when it is a `Create` of that row. -/
theorem runTokenCall_db_subset (r : repository.token.concreteRepository) (call : TokenCall)
    (row : models.Token) (hrow : row ∈ (runTokenCall r call).db) :
    row ∈ r.db ∨ call = TokenCall.Create row := by
  cases call with
  | Create token =>
    rcases repository.token.Create_db_subset r token row hrow with h | h
    · exact Or.inl h
    · exact Or.inr (by rw [h])
  | List => exact Or.inl hrow
  | Delete token => exact Or.inl (repository.token.Delete_db_subset r token row hrow)
  | Exists token => exact Or.inl hrow

theorem runTokenCalls_Exists_false (t : String) (calls : List TokenCall)
    (hcreate : TokenCall.Create { Token := t } ∉ calls)
    (r : repository.token.concreteRepository)
    (hex : (repository.token.Exists r t).value = false) :
    (repository.token.Exists (runTokenCalls r calls) t).value = false := by
  induction calls generalizing r with
  | nil => exact hex
  | cons call rest ih =>
    have hstep : (repository.token.Exists (runTokenCall r call) t).value = false := by
      rw [repository.token.Exists_value_false_iff] at hex ⊢
      intro row hrow hrt
      rcases runTokenCall_db_subset r call row hrow with h | h
      · exact hex row h hrt
      · apply hcreate
        rw [h]
        cases row
        simp only at hrt
        rw [hrt]
        exact List.mem_cons_self _ _
    exact ih (fun hmem => hcreate (List.mem_cons_of_mem _ hmem)) (runTokenCall r call) hstep

namespace repository.paste

/-- `Update` of a paste with a non-empty id no row has: no error, the argument returned, no
row changed. -/
theorem Update_matches_no_row (c : concreteRepository) (paste : models.Paste)
    (hid : paste.ID ≠ "") (habsent : ∀ row ∈ c.db, row.ID ≠ paste.ID) :
    Update c paste = { value := paste, err := none, state := c } := by
  have hmap : c.db.map (fun row => if row.ID == paste.ID then assign paste row else row)
      = c.db := by
    have h : ∀ row ∈ c.db,
        (fun row => if row.ID == paste.ID then assign paste row else row) row = id row := by
      intro row hrow
      have hne : (row.ID == paste.ID) = false := by simpa using habsent row hrow
      simp only [hne, Bool.false_eq_true, if_false, id]
    rw [List.map_congr_left h, List.map_id]
  simp only [Update, hid, if_false, hmap]

end repository.paste

namespace service.paste

theorem Update_of_absent (c : concreteService) (token : String) (paste : models.Paste)
    (hex : (repository.token.Exists c.tokenRepository token).value = true)
    (hid : paste.ID ≠ "") (habsent : ∀ row ∈ c.pasteRepository.db, row.ID ≠ paste.ID) :
    Update c token paste = { value := paste, err := none, state := c } := by
  simp only [Update, hex, repository.token.Exists_err,
    repository.paste.Update_matches_no_row c.pasteRepository paste hid habsent]
  simp

end service.paste

namespace repository.paste

theorem Create_mem (c : concreteRepository) (paste q : models.Paste)
    (hq : q ∈ (Create c paste).state.db) :
    q ∈ c.db ∨ (q = paste ∧ ∀ row ∈ c.db, row.ID ≠ paste.ID) := by
  by_cases hfresh : ∀ row ∈ c.db, row.ID ≠ paste.ID
  · rw [Create_of_fresh c paste hfresh] at hq
    rcases List.mem_append.mp hq with h | h
    · exact Or.inl h
    · exact Or.inr ⟨by simpa using h, hfresh⟩
  · have hrow : ∃ row ∈ c.db, row.ID = paste.ID := by
      simpa [not_forall] using hfresh
    rw [Create_of_present c paste hrow] at hq
    exact Or.inl hq

theorem Delete_mem (c : concreteRepository) (id : String) (q : models.Paste)
    (hq : q ∈ (Delete c id).state.db) : q ∈ c.db := by
  unfold Delete at hq
  simp only at hq
  split at hq
  · exact hq
  · exact (List.mem_filter.mp hq).1

theorem CleanExpired_mem (c : concreteRepository) (now : time.Time) (q : models.Paste)
    (hq : q ∈ (CleanExpired c now).state.db) : q ∈ c.db := by
  unfold CleanExpired at hq
  exact (List.mem_filter.mp hq).1

/-- The rows after `Update` are the rows before, each with its id; a row's flag is as before
when the argument's flag is false, and a flag that was true is true. -/
theorem Update_mem (c : concreteRepository) (paste q : models.Paste)
    (hq : q ∈ (Update c paste).state.db) :
    ∃ row ∈ c.db, q.ID = row.ID ∧
      (paste.IsPersistent = false → q.IsPersistent = row.IsPersistent) ∧
      (row.IsPersistent = true → q.IsPersistent = true) ∧
      (paste.ID ≠ "" → row.ID = paste.ID → paste.IsPersistent = true →
        q.IsPersistent = true) := by
  unfold Update at hq
  split at hq
  · rename_i hzero
    exact ⟨q, hq, rfl, fun _ => rfl, fun h => h, fun hne => absurd hzero hne⟩
  · rename_i hne
    obtain ⟨row, hrow, hqrow⟩ := List.mem_map.mp hq
    refine ⟨row, hrow, ?_⟩
    by_cases hmatch : row.ID = paste.ID
    · have hb : (row.ID == paste.ID) = true := by simpa using hmatch
      rw [hb, if_pos rfl] at hqrow
      subst hqrow
      refine ⟨?_, ?_, ?_, ?_⟩
      · simp only [assign, hne, if_false]
        exact hmatch.symm
      · intro hp
        simp only [assign, hp, if_true]
      · intro hr
        cases hp : paste.IsPersistent
        · simp only [assign, hp, if_true]
          exact hr
        · simp only [assign, hp, Bool.true_eq_false, if_false]
      · intro _ _ hp
        simp only [assign, hp, Bool.true_eq_false, if_false]
    · have hb : (row.ID == paste.ID) = false := by simpa using hmatch
      rw [hb] at hqrow
      simp only [Bool.false_eq_true, if_false] at hqrow
      subst hqrow
      exact ⟨rfl, fun _ => rfl, fun h => h, fun _ h => absurd h hmatch⟩

theorem Create_ids_nodup (c : concreteRepository) (paste : models.Paste)
    (hnodup : (c.db.map (fun row => row.ID)).Nodup) :
    ((Create c paste).state.db.map (fun row => row.ID)).Nodup := by
  by_cases hfresh : ∀ row ∈ c.db, row.ID ≠ paste.ID
  · rw [Create_of_fresh c paste hfresh]
    simp only [List.map_append, List.map_cons, List.map_nil]
    rw [List.nodup_append]
    refine ⟨hnodup, List.nodup_singleton _, ?_⟩
    intro a ha hb
    obtain ⟨row, hrow, hid⟩ := List.mem_map.mp ha
    have : a = paste.ID := by simpa using hb
    exact hfresh row hrow (hid.trans this)
  · have hrow : ∃ row ∈ c.db, row.ID = paste.ID := by
      simpa [not_forall] using hfresh
    rw [Create_of_present c paste hrow]
    exact hnodup

theorem Delete_ids_nodup (c : concreteRepository) (id : String)
    (hnodup : (c.db.map (fun row => row.ID)).Nodup) :
    ((Delete c id).state.db.map (fun row => row.ID)).Nodup := by
  unfold Delete
  simp only
  split
  · exact hnodup
  · exact hnodup.sublist ((List.filter_sublist _).map _)

theorem CleanExpired_ids_nodup (c : concreteRepository) (now : time.Time)
    (hnodup : (c.db.map (fun row => row.ID)).Nodup) :
    ((CleanExpired c now).state.db.map (fun row => row.ID)).Nodup := by
  unfold CleanExpired
  exact hnodup.sublist ((List.filter_sublist _).map _)

theorem Update_ids (c : concreteRepository) (paste : models.Paste) :
    (Update c paste).state.db.map (fun row => row.ID) = c.db.map (fun row => row.ID) := by
  unfold Update
  split
  · rfl
  · rename_i hne
    simp only [List.map_map]
    apply List.map_congr_left
    intro row _
    by_cases hmatch : row.ID = paste.ID
    · have hb : (row.ID == paste.ID) = true := by simpa using hmatch
      simp only [Function.comp, hb, if_true, assign, hne, if_false]
      exact hmatch.symm
    · have hb : (row.ID == paste.ID) = false := by simpa using hmatch
      simp only [Function.comp, hb, Bool.false_eq_true, if_false]

end repository.paste

namespace service.paste

theorem CreateRegular_pasteRepository (c : concreteService) (token : String)
    (content : Option (List UInt8)) (userTTL : time.Duration) (id : String) (now : time.Time) :
    (CreateRegular c token content userTTL id now).state.pasteRepository = c.pasteRepository ∨
    (CreateRegular c token content userTTL id now).state.pasteRepository =
      (repository.paste.Create c.pasteRepository
        (regularPaste c token content userTTL id now)).state := by
  by_cases hgate : token = "" ∨ (repository.token.Exists c.tokenRepository token).value = true
  · by_cases hsize : (repository.token.Exists c.tokenRepository token).value = true ∨
        (len content : Int) ≤ int c.options.Limit
    · by_cases hlen : 1 ≤ len content
      · rw [CreateRegular_of_checks c token content userTTL id now hgate hsize hlen]
        exact Or.inr rfl
      · rw [CreateRegular_of_empty c token content userTTL id now hgate hsize (by omega)]
        exact Or.inl rfl
    · have hex : (repository.token.Exists c.tokenRepository token).value = false :=
        Bool.eq_false_iff.mpr (fun h => hsize (Or.inl h))
      have ht : token = "" := hgate.resolve_right (fun h => hsize (Or.inl h))
      subst ht
      rw [CreateRegular_of_too_big c content userTTL id now hex
        (by have := fun h => hsize (Or.inr h); omega)]
      exact Or.inl rfl
  · have hex : (repository.token.Exists c.tokenRepository token).value = false :=
      Bool.eq_false_iff.mpr (fun h => hgate (Or.inr h))
    rw [CreateRegular_of_unknown_token c token content userTTL id now
      (fun h => hgate (Or.inl h)) hex]
    exact Or.inl rfl

theorem CreatePersistent_pasteRepository (c : concreteService) (token name : String)
    (content : Option (List UInt8)) (userTTL : time.Duration) (now : time.Time) :
    (CreatePersistent c token name content userTTL now).state.pasteRepository
      = c.pasteRepository ∨
    (CreatePersistent c token name content userTTL now).state.pasteRepository =
      (repository.paste.Create c.pasteRepository
        (persistentPaste name content userTTL now)).state := by
  by_cases hex : (repository.token.Exists c.tokenRepository token).value = true
  · by_cases hlen : 1 ≤ len content
    · rw [CreatePersistent_of_checks c token name content userTTL now hex hlen]
      exact Or.inr rfl
    · rw [CreatePersistent_of_empty c token name content userTTL now hex (by omega)]
      exact Or.inl rfl
  · rw [CreatePersistent_of_unknown_token c token name content userTTL now
      (Bool.eq_false_iff.mpr hex)]
    exact Or.inl rfl

theorem Get_pasteRepository (c : concreteService) (id : String) :
    (Get c id).state.pasteRepository = c.pasteRepository := by
  have h : (repository.paste.GetByID c.pasteRepository id).state = c.pasteRepository := by
    unfold repository.paste.GetByID
    split <;> rfl
  unfold Get
  simp only
  split
  · split <;> exact h
  · exact h

theorem Update_pasteRepository (c : concreteService) (token : String) (paste : models.Paste) :
    (Update c token paste).state.pasteRepository = c.pasteRepository ∨
    (Update c token paste).state.pasteRepository =
      (repository.paste.Update c.pasteRepository paste).state := by
  unfold Update
  simp only
  split
  · exact Or.inl rfl
  · split
    · exact Or.inl rfl
    · split <;> exact Or.inr rfl

theorem Update_pasteRepository_of_token (c : concreteService) (token : String)
    (paste : models.Paste)
    (hex : (repository.token.Exists c.tokenRepository token).value = true) :
    (Update c token paste).state.pasteRepository =
      (repository.paste.Update c.pasteRepository paste).state := by
  unfold Update
  simp only [hex, repository.token.Exists_err, Bool.true_eq_false, if_false]
  split <;> rfl

theorem Delete_pasteRepository (c : concreteService) (token id : String) :
    (Delete c token id).state.pasteRepository = c.pasteRepository ∨
    (Delete c token id).state.pasteRepository =
      (repository.paste.Delete c.pasteRepository id).state := by
  unfold Delete
  simp only
  split
  · exact Or.inl rfl
  · split
    · exact Or.inl rfl
    · split <;> exact Or.inr rfl

theorem CreateToken_pasteRepository (c : concreteService) (token nt : String) :
    (CreateToken c token nt).state.pasteRepository = c.pasteRepository := by
  unfold CreateToken
  simp only
  split
  · rfl
  · split
    · rfl
    · split <;> rfl

theorem RevokeToken_pasteRepository (c : concreteService) (accessToken toRevokeToken : String) :
    (RevokeToken c accessToken toRevokeToken).state.pasteRepository = c.pasteRepository := by
  unfold RevokeToken
  simp only
  split
  · rfl
  · split
    · rfl
    · split
      · split <;> rfl
      · rfl

/-- What a call does to the paste table: nothing, or one statement of the paste repository. -/
theorem Call.run_pasteRepository (c : concreteService) (call : Call) :
    (Call.run c call).pasteRepository = c.pasteRepository ∨
    (∃ paste, (Call.run c call).pasteRepository =
      (repository.paste.Create c.pasteRepository paste).state) ∨
    (∃ token paste, call = Call.Update token paste ∧ (Call.run c call).pasteRepository =
      (repository.paste.Update c.pasteRepository paste).state) ∨
    (∃ id, (Call.run c call).pasteRepository =
      (repository.paste.Delete c.pasteRepository id).state) ∨
    (∃ now, (Call.run c call).pasteRepository =
      (repository.paste.CleanExpired c.pasteRepository now).state) := by
  cases call with
  | CreateRegular token content userTTL id now =>
    rcases CreateRegular_pasteRepository c token content userTTL id now with h | h
    · exact Or.inl h
    · exact Or.inr (Or.inl ⟨_, h⟩)
  | CreatePersistent token name content userTTL now =>
    rcases CreatePersistent_pasteRepository c token name content userTTL now with h | h
    · exact Or.inl h
    · exact Or.inr (Or.inl ⟨_, h⟩)
  | Get id => exact Or.inl (Get_pasteRepository c id)
  | Update token paste =>
    rcases Update_pasteRepository c token paste with h | h
    · exact Or.inl h
    · exact Or.inr (Or.inr (Or.inl ⟨token, paste, rfl, h⟩))
  | Delete token id =>
    rcases Delete_pasteRepository c token id with h | h
    · exact Or.inl h
    · exact Or.inr (Or.inr (Or.inr (Or.inl ⟨id, h⟩)))
  | CleanExpired now => exact Or.inr (Or.inr (Or.inr (Or.inr ⟨now, rfl⟩)))
  | CreateToken token nt => exact Or.inl (CreateToken_pasteRepository c token nt)
  | RevokeToken accessToken toRevokeToken =>
    exact Or.inl (RevokeToken_pasteRepository c accessToken toRevokeToken)

/-- The ids of the paste table stay pairwise distinct through every call. -/
theorem Call.run_ids_nodup (c : concreteService) (call : Call)
    (hnodup : (c.pasteRepository.db.map (fun row => row.ID)).Nodup) :
    ((Call.run c call).pasteRepository.db.map (fun row => row.ID)).Nodup := by
  rcases Call.run_pasteRepository c call with h | ⟨paste, h⟩ | ⟨_, paste, _, h⟩ | ⟨id, h⟩ |
    ⟨now, h⟩
  · rw [h]; exact hnodup
  · rw [h]; exact repository.paste.Create_ids_nodup _ paste hnodup
  · rw [h, repository.paste.Update_ids]; exact hnodup
  · rw [h]; exact repository.paste.Delete_ids_nodup _ id hnodup
  · rw [h]; exact repository.paste.CleanExpired_ids_nodup _ now hnodup

theorem runAll_ids_nodup (calls : List Call) (c : concreteService)
    (hnodup : (c.pasteRepository.db.map (fun row => row.ID)).Nodup) :
    ((runAll c calls).pasteRepository.db.map (fun row => row.ID)).Nodup := by
  induction calls generalizing c with
  | nil => exact hnodup
  | cons call rest ih => exact ih (Call.run c call) (Call.run_ids_nodup c call hnodup)

/-- Two rows of a table with pairwise distinct ids that have the same id are one row. -/
theorem eq_of_ids_nodup (db : List models.Paste)
    (hnodup : (db.map (fun row => row.ID)).Nodup) (p q : models.Paste)
    (hp : p ∈ db) (hq : q ∈ db) (hid : q.ID = p.ID) : q = p :=
  List.inj_on_of_nodup_map hnodup hq hp hid

end service.paste

namespace service.paste

/-- A row of the paste table after a call, with the id of a row `p` of the table before, the
ids before being pairwise distinct: its flag is the flag of `p` unless the call is an `Update`
whose argument has the flag set, and it is set when the flag of `p` is. -/
theorem Call.run_IsPersistent (c : concreteService) (call : Call)
    (hnodup : (c.pasteRepository.db.map (fun row => row.ID)).Nodup)
    (p q : models.Paste) (hp : p ∈ c.pasteRepository.db)
    (hq : q ∈ (Call.run c call).pasteRepository.db) (hid : q.ID = p.ID) :
    ((∀ token paste, call = Call.Update token paste → paste.IsPersistent = false) →
      q.IsPersistent = p.IsPersistent) ∧
    (p.IsPersistent = true → q.IsPersistent = true) := by
  have hsame : q ∈ c.pasteRepository.db →
      ((∀ token paste, call = Call.Update token paste → paste.IsPersistent = false) →
        q.IsPersistent = p.IsPersistent) ∧
      (p.IsPersistent = true → q.IsPersistent = true) := by
    intro hqc
    have heq := eq_of_ids_nodup c.pasteRepository.db hnodup p q hp hqc hid
    rw [heq]
    exact ⟨fun _ => rfl, fun h => h⟩
  rcases Call.run_pasteRepository c call with h | ⟨paste, h⟩ | ⟨token, paste, hcall, h⟩ |
    ⟨id, h⟩ | ⟨now, h⟩
  · rw [h] at hq
    exact hsame hq
  · rw [h] at hq
    rcases repository.paste.Create_mem c.pasteRepository paste q hq with hqc | ⟨hqp, hfresh⟩
    · exact hsame hqc
    · rw [hqp] at hid
      exact absurd hid.symm (hfresh p hp)
  · rw [h] at hq
    obtain ⟨row, hrow, hrid, hkeep, hmono, _⟩ :=
      repository.paste.Update_mem c.pasteRepository paste q hq
    have heq := eq_of_ids_nodup c.pasteRepository.db hnodup p row hp hrow (hrid.symm.trans hid)
    rw [heq] at hkeep hmono
    exact ⟨fun hsafe => hkeep (hsafe token paste hcall), hmono⟩
  · rw [h] at hq
    exact hsame (repository.paste.Delete_mem c.pasteRepository id q hq)
  · rw [h] at hq
    exact hsame (repository.paste.CleanExpired_mem c.pasteRepository now q hq)

/-- `Update` with a token of the token table and an argument with the flag set sets the flag
of the row that has the argument's id. -/
theorem Update_sets_IsPersistent (c : concreteService) (token : String) (paste : models.Paste)
    (hex : (repository.token.Exists c.tokenRepository token).value = true)
    (hnodup : (c.pasteRepository.db.map (fun row => row.ID)).Nodup)
    (p q : models.Paste) (hp : p ∈ c.pasteRepository.db)
    (hq : q ∈ (Update c token paste).state.pasteRepository.db) (hid : q.ID = p.ID)
    (hpaste : paste.ID = p.ID) (hne : p.ID ≠ "") (hflag : paste.IsPersistent = true) :
    q.IsPersistent = true := by
  rw [Update_pasteRepository_of_token c token paste hex] at hq
  obtain ⟨row, hrow, hrid, _, _, hset⟩ :=
    repository.paste.Update_mem c.pasteRepository paste q hq
  have heq := eq_of_ids_nodup c.pasteRepository.db hnodup p row hp hrow (hrid.symm.trans hid)
  exact hset (by rw [hpaste]; exact hne) (by rw [heq, hpaste]) hflag

end service.paste

namespace service.paste

/-- `CleanExpired` changes nothing exactly when the delete condition holds for no row. -/
theorem CleanExpired_state_eq_iff (c : concreteService) (now : time.Time) :
    (CleanExpired c now).state = c ↔
      ∀ row ∈ c.pasteRepository.db, repository.paste.expired now row = false := by
  have hfilter : c.pasteRepository.db.filter (fun row => !(repository.paste.expired now row))
      = c.pasteRepository.db ↔
      ∀ row ∈ c.pasteRepository.db, repository.paste.expired now row = false := by
    rw [List.filter_eq_self]
    simp
  rw [← hfilter]
  constructor
  · intro h
    exact congrArg (fun s => s.pasteRepository.db) h
  · intro h
    simp only [CleanExpired, repository.paste.CleanExpired, h]

end service.paste

/-! ## Claims -/

namespace service.paste

/-- C1, counterexample.  The claim, that every call of `CreateRegular` by a caller whose token
is empty or not in the token table, with content longer than the limit, fails with
`ErrTooBig`, is false: with the non-empty token `bogus`, which the table does not hold, the
call fails with `ErrUnauthorized`. -/
theorem CreateRegular_TooBig_refuted :
    (len (some [1, 2]) > sample.options.Limit ∧
      (repository.token.Exists sample.tokenRepository "bogus").value = false ∧
      (CreateRegular sample "bogus" (some [1, 2]) (60 * time.Second) "abcdefgh" (time.Unix 0 0)).err
        = some Error.ErrUnauthorized) ∧
    ¬ ∀ (c : concreteService) (token : String) (content : Option (List UInt8))
        (userTTL : time.Duration) (id : String) (now : time.Time),
        len content > c.options.Limit →
        (token = "" ∨ (repository.token.Exists c.tokenRepository token).value = false) →
        (CreateRegular c token content userTTL id now).err = some Error.ErrTooBig := by
  refine ⟨by decide, fun h => ?_⟩
  have h1 := h sample "bogus" (some [1, 2]) (60 * time.Second) "abcdefgh" (time.Unix 0 0)
    (by decide) (by decide)
  revert h1
  decide

/-- C1, amended.  For content longer than the configured limit: `CreateRegular` with the empty
token, the token table not holding the empty token, fails with `ErrTooBig`; with a non-empty
token the table does not hold it fails with `ErrUnauthorized`; with a token the table holds it
does not fail with `ErrTooBig`, and it succeeds, storing the content, when no row of the paste
table has the generated id.  A failing call leaves the service as it was. -/
theorem CreateRegular_over_limit (c : concreteService) (token : String)
    (content : Option (List UInt8)) (userTTL : time.Duration) (id : String) (now : time.Time)
    (hlen : len content > c.options.Limit) :
    (token = "" → (repository.token.Exists c.tokenRepository token).value = false →
      (CreateRegular c token content userTTL id now).err = some Error.ErrTooBig ∧
      (CreateRegular c token content userTTL id now).state = c) ∧
    (token ≠ "" → (repository.token.Exists c.tokenRepository token).value = false →
      (CreateRegular c token content userTTL id now).err = some Error.ErrUnauthorized ∧
      (CreateRegular c token content userTTL id now).state = c) ∧
    ((repository.token.Exists c.tokenRepository token).value = true →
      (CreateRegular c token content userTTL id now).err ≠ some Error.ErrTooBig ∧
      ((∀ row ∈ c.pasteRepository.db, row.ID ≠ id) →
        (CreateRegular c token content userTTL id now).err = none ∧
        (CreateRegular c token content userTTL id now).value.Content = content ∧
        (CreateRegular c token content userTTL id now).value ∈
          (CreateRegular c token content userTTL id now).state.pasteRepository.db)) := by
  have hbig : (len content : Int) > int c.options.Limit := by
    have := int_le c.options.Limit
    omega
  refine ⟨?_, ?_, ?_⟩
  · intro ht hex
    subst ht
    rw [CreateRegular_of_too_big c content userTTL id now hex hbig]
    exact ⟨rfl, rfl⟩
  · intro ht hex
    rw [CreateRegular_of_unknown_token c token content userTTL id now ht hex]
    exact ⟨rfl, rfl⟩
  · intro hex
    rw [CreateRegular_of_checks c token content userTTL id now (Or.inr hex) (Or.inl hex)
      (by omega)]
    rcases repository.paste.Create_err_cases c.pasteRepository
      (regularPaste c token content userTTL id now) with ⟨e1, e2, e3⟩ | ⟨e1, e2, e3⟩
    · simp only [e1, e3, Option.map_none', if_true]
      exact ⟨fun h => Option.noConfusion h, fun _ => ⟨trivial, rfl, by simp⟩⟩
    · have hdup := repository.paste.Create_err_none_iff c.pasteRepository
        (regularPaste c token content userTTL id now)
      refine ⟨by simp [e1], fun hfresh => ?_⟩
      rw [hdup.mpr hfresh] at e1
      exact Option.noConfusion e1

/-- C1, witness: the anonymous caller of the sample service with two bytes against a limit of
one byte. -/
theorem CreateRegular_over_limit_witness :
    (CreateRegular sample "" (some [1, 2]) (60 * time.Second) "abcdefgh" (time.Unix 0 0)).err
      = some Error.ErrTooBig ∧
    (CreateRegular sample "verycooltokensir" (some [1, 2]) (60 * time.Second) "abcdefgh" (time.Unix 0 0)).err
      = none :=
  ⟨((CreateRegular_over_limit sample "" (some [1, 2]) (60 * time.Second) "abcdefgh" (time.Unix 0 0)
      (by decide)).1 rfl (by decide)).1,
   ((CreateRegular_over_limit sample "verycooltokensir" (some [1, 2]) (60 * time.Second)
      "abcdefgh" (time.Unix 0 0) (by decide)).2.2 (by decide)).2 (by decide) |>.1⟩

end service.paste

namespace service.paste

/-- C2, counterexample.  The claim, that with content of length 0 both `CreateRegular` and
`CreatePersistent` fail with `ErrInvalidRequest` for every token, is false: with the token
`bogus`, which the token table does not hold, both fail with `ErrUnauthorized`. -/
theorem create_empty_InvalidRequest_refuted :
    (len (some []) = 0 ∧
      (CreateRegular sample "bogus" (some []) (60 * time.Second) "abcdefgh" (time.Unix 0 0)).err
        = some Error.ErrUnauthorized ∧
      (CreatePersistent sample "bogus" "mydoc" (some []) (60 * time.Second) (time.Unix 0 0)).err
        = some Error.ErrUnauthorized) ∧
    ¬ ∀ (c : concreteService) (token name : String) (content : Option (List UInt8))
        (userTTL : time.Duration) (id : String) (now : time.Time),
        len content = 0 →
        (CreateRegular c token content userTTL id now).err = some Error.ErrInvalidRequest ∧
        (CreatePersistent c token name content userTTL now).err = some Error.ErrInvalidRequest := by
  refine ⟨by decide, fun h => ?_⟩
  have h1 := h sample "bogus" "mydoc" (some []) (60 * time.Second) "abcdefgh" (time.Unix 0 0) (by decide)
  revert h1
  decide

/-- C2, amended.  With content of length 0, whatever the name, the requested TTL and the state
of the two tables: with a token the token table holds, `CreateRegular` and `CreatePersistent`
fail with `ErrInvalidRequest`; with the empty token, the table not holding it, `CreateRegular`
fails with `ErrInvalidRequest` when the limit is below 2^63; with a token the table does not
hold `CreatePersistent` fails with `ErrUnauthorized`, and so does `CreateRegular` when that
token is not empty.  Each of these calls leaves the service as it was. -/
theorem create_empty_content (c : concreteService) (token name : String)
    (content : Option (List UInt8)) (userTTL : time.Duration) (id : String) (now : time.Time)
    (hlen : len content = 0) :
    ((repository.token.Exists c.tokenRepository token).value = true →
      CreateRegular c token content userTTL id now =
        { value := models.Paste.zero, err := some Error.ErrInvalidRequest, state := c } ∧
      CreatePersistent c token name content userTTL now =
        { value := models.Paste.zero, err := some Error.ErrInvalidRequest, state := c }) ∧
    (token = "" → c.options.Limit < 2 ^ 63 →
      CreateRegular c token content userTTL id now =
        { value := models.Paste.zero, err := some Error.ErrInvalidRequest, state := c }) ∧
    ((repository.token.Exists c.tokenRepository token).value = false →
      CreatePersistent c token name content userTTL now =
        { value := models.Paste.zero, err := some Error.ErrUnauthorized, state := c } ∧
      (token ≠ "" → CreateRegular c token content userTTL id now =
        { value := models.Paste.zero, err := some Error.ErrUnauthorized, state := c })) := by
  have hlt : len content < 1 := by omega
  refine ⟨fun hex => ⟨?_, ?_⟩, fun ht hlim => ?_, fun hex => ⟨?_, fun ht => ?_⟩⟩
  · exact CreateRegular_of_empty c token content userTTL id now (Or.inr hex) (Or.inl hex) hlt
  · exact CreatePersistent_of_empty c token name content userTTL now hex hlt
  · refine CreateRegular_of_empty c token content userTTL id now (Or.inl ht) (Or.inr ?_) hlt
    rw [int_eq_of_lt c.options.Limit hlim]
    omega
  · exact CreatePersistent_of_unknown_token c token name content userTTL now hex
  · exact CreateRegular_of_unknown_token c token content userTTL id now ht hex

/-- C2, witness: nil content offered to the sample service with its token. -/
theorem create_empty_content_witness :
    (CreateRegular sample "verycooltokensir" none 0 "abcdefgh" (time.Unix 0 0)).err
      = some Error.ErrInvalidRequest ∧
    (CreatePersistent sample "verycooltokensir" "mydoc" none 0 (time.Unix 0 0)).err
      = some Error.ErrInvalidRequest := by
  have h := (create_empty_content sample "verycooltokensir" "mydoc" none 0 "abcdefgh" (time.Unix 0 0)
    (by decide)).1 (by decide)
  exact ⟨by rw [h.1], by rw [h.2]⟩

/-- C3, counterexample.  The claim, that for a caller without a token of the table the expiry
of a regular paste is `now + min(requested_ttl, default_ttl)` for every configured
`default_ttl`, zero included, is false: with `default_ttl = 0` and a request of 60 seconds the
paste expires at `now + 60s`, not at `now`. -/
theorem CreateRegular_expiry_refuted :
    (sampleZeroTTL.options.TTL = 0 ∧
      (repository.token.Exists sampleZeroTTL.tokenRepository "").value = false ∧
      (CreateRegular sampleZeroTTL "" (some [104, 101, 108, 108, 111]) (60 * time.Second)
        "abcdefgh" (time.Unix 0 1000)).err = none ∧
      (CreateRegular sampleZeroTTL "" (some [104, 101, 108, 108, 111]) (60 * time.Second)
        "abcdefgh" (time.Unix 0 1000)).value.ExpiredAt
        = time.Add (time.Unix 0 1000) (60 * time.Second) ∧
      time.Add (time.Unix 0 1000) (min (60 * time.Second) sampleZeroTTL.options.TTL)
        = time.Unix 0 1000 ∧
      time.Add (time.Unix 0 1000) (60 * time.Second) ≠ time.Unix 0 1000) ∧
    ¬ ∀ (c : concreteService) (token : String) (content : Option (List UInt8))
        (userTTL : time.Duration) (id : String) (now : time.Time),
        (CreateRegular c token content userTTL id now).err = none →
        (CreateRegular c token content userTTL id now).value.IsPersistent = false ∧
        (CreateRegular c token content userTTL id now).value.ExpiredAt =
          time.Add now (if (repository.token.Exists c.tokenRepository token).value = true then userTTL
                  else min userTTL c.options.TTL) := by
  refine ⟨by decide, fun h => ?_⟩
  have h1 := h sampleZeroTTL "" (some [104, 101, 108, 108, 111]) (60 * time.Second) "abcdefgh"
    (time.Unix 0 1000) (by decide)
  revert h1
  decide

/-- C3, amended.  A successful `CreateRegular` returns, and stores, a paste with the generated
id, the given content, `IsPersistent = false` and `ExpiredAt = now + ttl`, where `ttl` is the
requested TTL as it is (zero or negative included) when the token table holds the token, and
otherwise the smaller of the requested TTL and the default, the default being the configured
TTL, or one day when the configured TTL is zero. -/
theorem CreateRegular_expiry (c : concreteService) (token : String)
    (content : Option (List UInt8)) (userTTL : time.Duration) (id : String) (now : time.Time)
    (hok : (CreateRegular c token content userTTL id now).err = none) :
    (CreateRegular c token content userTTL id now).value.ID = id ∧
    (CreateRegular c token content userTTL id now).value.Content = content ∧
    (CreateRegular c token content userTTL id now).value.IsPersistent = false ∧
    (CreateRegular c token content userTTL id now).value.ExpiredAt =
      time.Add now (if (repository.token.Exists c.tokenRepository token).value = true then userTTL
              else min userTTL (if c.options.TTL = 0 then time.Hour * 24 else c.options.TTL)) ∧
    (CreateRegular c token content userTTL id now).value ∈
      (CreateRegular c token content userTTL id now).state.pasteRepository.db := by
  obtain ⟨hgate, hsize, hlen, hc⟩ := CreateRegular_err_none c token content userTTL id now hok
  rw [CreateRegular_of_checks c token content userTTL id now hgate hsize hlen]
  rcases repository.paste.Create_err_cases c.pasteRepository
    (regularPaste c token content userTTL id now) with ⟨_, _, e3⟩ | ⟨e1, _, _⟩
  · simp only [hc, e3, if_true]
    exact ⟨rfl, rfl, rfl, rfl, by simp⟩
  · rw [hc] at e1
    exact Option.noConfusion e1

/-- C3, witness: the anonymous caller of the service configured with a default TTL of zero. -/
theorem CreateRegular_expiry_witness :
    (CreateRegular sampleZeroTTL "" (some [104, 101, 108, 108, 111]) (60 * time.Second)
      "abcdefgh" (time.Unix 0 1000)).value.ExpiredAt = time.Unix 60 1000 :=
  (CreateRegular_expiry sampleZeroTTL "" (some [104, 101, 108, 108, 111]) (60 * time.Second)
    "abcdefgh" (time.Unix 0 1000) (by decide)).2.2.2.1.trans (by decide)

end service.paste

namespace service.paste

/-- C4.  A successful `CreatePersistent` returns, and stores, a paste whose id is the name the
caller supplied, whose content is the given content, whose `IsPersistent` is true and whose
`ExpiredAt` is `now + requested_ttl` when `requested_ttl > 0` and otherwise (zero and negative
alike) the instant 9999-12-31 23:59:59 UTC, which is second 253402300799 of the Unix era. -/
theorem CreatePersistent_result (c : concreteService) (token name : String)
    (content : Option (List UInt8)) (userTTL : time.Duration) (now : time.Time)
    (hok : (CreatePersistent c token name content userTTL now).err = none) :
    (CreatePersistent c token name content userTTL now).value.ID = name ∧
    (CreatePersistent c token name content userTTL now).value.Content = content ∧
    (CreatePersistent c token name content userTTL now).value.IsPersistent = true ∧
    (CreatePersistent c token name content userTTL now).value.ExpiredAt =
      (if userTTL > 0 then time.Add now userTTL else time.Date 9999 12 31 23 59 59 0) ∧
    time.Date 9999 12 31 23 59 59 0 = time.Unix 253402300799 0 ∧
    (CreatePersistent c token name content userTTL now).value ∈
      (CreatePersistent c token name content userTTL now).state.pasteRepository.db := by
  obtain ⟨hex, hlen, hc⟩ := CreatePersistent_err_none c token name content userTTL now hok
  rw [CreatePersistent_of_checks c token name content userTTL now hex hlen]
  rcases repository.paste.Create_err_cases c.pasteRepository
    (persistentPaste name content userTTL now) with ⟨_, _, e3⟩ | ⟨e1, _, _⟩
  · simp only [hc, e3, if_true]
    exact ⟨rfl, rfl, rfl, rfl, by decide, by simp⟩
  · rw [hc] at e1
    exact Option.noConfusion e1

/-- C4, witness: a persistent paste without TTL, and one with a TTL of 60 seconds. -/
theorem CreatePersistent_result_witness :
    (CreatePersistent sample "verycooltokensir" "mydoc" (some [1]) 0 (time.Unix 0 1000)).value.ExpiredAt
      = time.Unix 253402300799 0 ∧
    (CreatePersistent sample "verycooltokensir" "mydoc" (some [1]) (60 * time.Second)
      (time.Unix 0 1000)).value.ExpiredAt = time.Unix 60 1000 :=
  ⟨(CreatePersistent_result sample "verycooltokensir" "mydoc" (some [1]) 0 (time.Unix 0 1000)
      (by decide)).2.2.2.1.trans (by decide),
   (CreatePersistent_result sample "verycooltokensir" "mydoc" (some [1]) (60 * time.Second) (time.Unix 0 1000)
      (by decide)).2.2.2.1.trans (by decide)⟩

/-- C5.  When a `CreatePersistent` with some name succeeds, a second `CreatePersistent` with
the same name, a token of the token table and non-empty content fails with `ErrExists` and
leaves the service as the first call left it; reading the name still returns the paste of the
first call, with its content, expiry and flag. -/
theorem CreatePersistent_twice (c : concreteService) (token token2 name : String)
    (content content2 : Option (List UInt8)) (userTTL userTTL2 : time.Duration)
    (now now2 : time.Time)
    (hok : (CreatePersistent c token name content userTTL now).err = none)
    (htoken2 : (repository.token.Exists c.tokenRepository token2).value = true)
    (hlen2 : 1 ≤ len content2) :
    (CreatePersistent (CreatePersistent c token name content userTTL now).state
        token2 name content2 userTTL2 now2).err = some Error.ErrExists ∧
    (CreatePersistent (CreatePersistent c token name content userTTL now).state
        token2 name content2 userTTL2 now2).state =
      (CreatePersistent c token name content userTTL now).state ∧
    Get (CreatePersistent (CreatePersistent c token name content userTTL now).state
        token2 name content2 userTTL2 now2).state name =
      { value := (CreatePersistent c token name content userTTL now).value, err := none,
        state := (CreatePersistent c token name content userTTL now).state } := by
  obtain ⟨hex, hlen, hc⟩ := CreatePersistent_err_none c token name content userTTL now hok
  have hfresh : ∀ row ∈ c.pasteRepository.db, row.ID ≠ (persistentPaste name content userTTL now).ID :=
    (repository.paste.Create_err_none_iff _ _).mp hc
  have h1 : CreatePersistent c token name content userTTL now =
      { value := persistentPaste name content userTTL now, err := none,
        state := ⟨⟨c.pasteRepository.db ++ [persistentPaste name content userTTL now]⟩,
          c.tokenRepository, c.options⟩ } := by
    rw [CreatePersistent_of_checks c token name content userTTL now hex hlen,
      repository.paste.Create_of_fresh _ _ hfresh]
    rfl
  have hdup : ∃ row ∈ c.pasteRepository.db ++ [persistentPaste name content userTTL now],
      row.ID = (persistentPaste name content2 userTTL2 now2).ID :=
    ⟨persistentPaste name content userTTL now, by simp, rfl⟩
  have h2 : CreatePersistent
      ⟨⟨c.pasteRepository.db ++ [persistentPaste name content userTTL now]⟩,
        c.tokenRepository, c.options⟩
      token2 name content2 userTTL2 now2 =
      { value := models.Paste.zero, err := some Error.ErrExists,
        state := ⟨⟨c.pasteRepository.db ++ [persistentPaste name content userTTL now]⟩,
          c.tokenRepository, c.options⟩ } := by
    rw [CreatePersistent_of_checks
      ⟨⟨c.pasteRepository.db ++ [persistentPaste name content userTTL now]⟩,
        c.tokenRepository, c.options⟩ token2 name content2 userTTL2 now2 htoken2 hlen2,
      repository.paste.Create_of_present
        ⟨c.pasteRepository.db ++ [persistentPaste name content userTTL now]⟩ _ hdup]
    rfl
  rw [h1]
  simp only [h2]
  refine ⟨trivial, trivial, ?_⟩
  have hget := repository.paste.GetByID_append_of_fresh c.pasteRepository
    (persistentPaste name content userTTL now) hfresh
  have hid : (persistentPaste name content userTTL now).ID = name := rfl
  rw [hid] at hget
  simp only [Get, hget]

/-- C5, witness: the name `mydoc` created twice on the sample service. -/
theorem CreatePersistent_twice_witness :
    (CreatePersistent (CreatePersistent sample "verycooltokensir" "mydoc" (some [1]) 0 (time.Unix 0 0)).state
      "verycooltokensir" "mydoc" (some [2, 3]) (60 * time.Second) (time.Unix 0 5)).err
      = some Error.ErrExists :=
  (CreatePersistent_twice sample "verycooltokensir" "verycooltokensir" "mydoc" (some [1])
    (some [2, 3]) 0 (60 * time.Second) (time.Unix 0 0) (time.Unix 0 5) (by decide) (by decide) (by decide)).1

/-- C6.  With a token the token table does not hold (the empty token included), each of
`CreatePersistent`, `Update`, `Delete`, `CreateToken` and `RevokeToken` fails with
`ErrUnauthorized`, whatever its other arguments, and leaves the service, both tables
included, as it was; so reading `mydoc` after `CreatePersistent` with the name `mydoc` finds
what it found before. -/
theorem privileged_of_unknown_token (c : concreteService) (token : String)
    (hex : (repository.token.Exists c.tokenRepository token).value = false)
    (name id nt toRevokeToken : String) (content : Option (List UInt8))
    (userTTL : time.Duration) (now : time.Time) (paste : models.Paste) :
    CreatePersistent c token name content userTTL now =
      { value := models.Paste.zero, err := some Error.ErrUnauthorized, state := c } ∧
    Update c token paste =
      { value := models.Paste.zero, err := some Error.ErrUnauthorized, state := c } ∧
    Delete c token id =
      { value := models.Paste.zero, err := some Error.ErrUnauthorized, state := c } ∧
    CreateToken c token nt = { value := "", err := some Error.ErrUnauthorized, state := c } ∧
    RevokeToken c token toRevokeToken =
      { value := (), err := some Error.ErrUnauthorized, state := c } ∧
    Get (CreatePersistent c token "mydoc" content userTTL now).state "mydoc" = Get c "mydoc" := by
  refine ⟨CreatePersistent_of_unknown_token c token name content userTTL now hex,
    Update_of_unknown_token c token paste hex, Delete_of_unknown_token c token id hex,
    CreateToken_of_unknown_token c token nt hex,
    RevokeToken_of_unknown_token c token toRevokeToken hex, ?_⟩
  rw [CreatePersistent_of_unknown_token c token "mydoc" content userTTL now hex]

/-- C6, witness: the token `invalid` and the name `mydoc` on the sample service, whose paste
table is empty. -/
theorem privileged_of_unknown_token_witness :
    (CreatePersistent sample "invalid" "mydoc" (some [1]) 0 (time.Unix 0 0)).err = some Error.ErrUnauthorized ∧
    (Get (CreatePersistent sample "invalid" "mydoc" (some [1]) 0 (time.Unix 0 0)).state "mydoc").err
      = some Error.ErrNotFound := by
  have h := privileged_of_unknown_token sample "invalid" (by decide) "mydoc" "mydoc" "newtoken"
    "verycooltokensir" (some [1]) 0 (time.Unix 0 0) models.Paste.zero
  exact ⟨by rw [h.1], by rw [h.2.2.2.2.2]; decide⟩

end service.paste

namespace service.paste

/-- C7.  After `RevokeToken(a, t)` succeeds, also with `a = t`, the token table's `Exists(t)`
is false, with no error, and it stays so through every further sequence of calls in which no
`CreateToken` draws `t` anew; in the state they lead to each of `CreatePersistent`, `Update`,
`Delete`, `CreateToken` and `RevokeToken` with `t` as its authorizing token fails with
`ErrUnauthorized` and changes nothing. -/
theorem RevokeToken_then_Unauthorized (c : concreteService) (a t : String)
    (hok : (RevokeToken c a t).err = none)
    (calls : List Call) (hmint : ∀ token, Call.CreateToken token t ∉ calls)
    (name id nt toRevokeToken : String) (content : Option (List UInt8))
    (userTTL : time.Duration) (now : time.Time) (paste : models.Paste) :
    (repository.token.Exists (RevokeToken c a t).state.tokenRepository t).value = false ∧
    (repository.token.Exists (RevokeToken c a t).state.tokenRepository t).err = none ∧
    (repository.token.Exists (runAll (RevokeToken c a t).state calls).tokenRepository t).value
      = false ∧
    CreatePersistent (runAll (RevokeToken c a t).state calls) t name content userTTL now =
      { value := models.Paste.zero, err := some Error.ErrUnauthorized,
        state := runAll (RevokeToken c a t).state calls } ∧
    Update (runAll (RevokeToken c a t).state calls) t paste =
      { value := models.Paste.zero, err := some Error.ErrUnauthorized,
        state := runAll (RevokeToken c a t).state calls } ∧
    Delete (runAll (RevokeToken c a t).state calls) t id =
      { value := models.Paste.zero, err := some Error.ErrUnauthorized,
        state := runAll (RevokeToken c a t).state calls } ∧
    CreateToken (runAll (RevokeToken c a t).state calls) t nt =
      { value := "", err := some Error.ErrUnauthorized,
        state := runAll (RevokeToken c a t).state calls } ∧
    RevokeToken (runAll (RevokeToken c a t).state calls) t toRevokeToken =
      { value := (), err := some Error.ErrUnauthorized,
        state := runAll (RevokeToken c a t).state calls } := by
  have h0 : (repository.token.Exists (RevokeToken c a t).state.tokenRepository t).value
      = false := by
    rw [(RevokeToken_err_none c a t hok).2, repository.token.Exists_value_false_iff]
    intro row hrow
    simpa using (List.mem_filter.mp hrow).2
  have h1 := runAll_Exists_false t calls hmint (RevokeToken c a t).state h0
  exact ⟨h0, rfl, h1, CreatePersistent_of_unknown_token _ t name content userTTL now h1,
    Update_of_unknown_token _ t paste h1, Delete_of_unknown_token _ t id h1,
    CreateToken_of_unknown_token _ t nt h1, RevokeToken_of_unknown_token _ t toRevokeToken h1⟩

/-- C7, witness: the default token of the sample service revokes itself; a regular paste is
created anonymously; the revoked token then asks for a persistent paste. -/
theorem RevokeToken_then_Unauthorized_witness :
    (CreatePersistent
      (runAll (RevokeToken sample "verycooltokensir" "verycooltokensir").state
        [Call.CreateRegular "" (some [1]) 0 "abcdefgh" (time.Unix 0 0)])
      "verycooltokensir" "mydoc" (some [1]) 0 (time.Unix 0 0)).err = some Error.ErrUnauthorized := by
  have h := (RevokeToken_then_Unauthorized sample "verycooltokensir" "verycooltokensir"
    (by decide) [Call.CreateRegular "" (some [1]) 0 "abcdefgh" (time.Unix 0 0)]
    (by intro token hmem; simp at hmem)
    "mydoc" "mydoc" "newtoken" "other" (some [1]) 0 (time.Unix 0 0) models.Paste.zero).2.2.2.1
  rw [h]

/-- C8, the code at the failing input.  On the sample service, in New York on 3 November
2024, an anonymous `CreateRegular` at 05:40:00 UTC with a TTL of ten minutes stores a paste
that expires at 05:50:00 UTC, bound as the text `2024-11-03 01:50:00-04:00`.  `CleanExpired`
at 06:10:00 UTC, twenty minutes after the expiry, binds `2024-11-03 01:10:00-05:00`, and the
regular paste stays in the table where the claim has it removed.  In the other direction a
paste created at 05:35:00 UTC with a TTL of 55 minutes, bound as `2024-11-03 01:30:00-05:00`,
is removed by `CleanExpired` at 05:40:00 UTC, 50 minutes before its expiry, where the claim
has it kept.  What holds at every input: `CleanExpired` returns no error, removes no
persistent paste, whatever its expiry, and adds or changes no paste. -/
theorem CleanExpired_keeps_expired_paste :
    ((runAll sample [Call.CreateRegular "" (some [1]) (600 * time.Second) "abcdefgh"
        ((time.Unix 1730612400 0).In newYork)]).pasteRepository.db =
        [{ ID := "abcdefgh", Content := some [1], IsPersistent := false,
           ExpiredAt := (time.Unix 1730613000 0).In newYork }] ∧
      ((time.Unix 1730613000 0).In newYork).Before ((time.Unix 1730614200 0).In newYork)
        = true ∧
      time.text (sqlite.bind ((time.Unix 1730613000 0).In newYork))
        = "2024-11-03 01:50:00-04:00" ∧
      time.text (sqlite.bind ((time.Unix 1730614200 0).In newYork))
        = "2024-11-03 01:10:00-05:00" ∧
      (CleanExpired
        (runAll sample [Call.CreateRegular "" (some [1]) (600 * time.Second) "abcdefgh"
          ((time.Unix 1730612400 0).In newYork)])
        ((time.Unix 1730614200 0).In newYork)).state.pasteRepository.db =
        [{ ID := "abcdefgh", Content := some [1], IsPersistent := false,
           ExpiredAt := (time.Unix 1730613000 0).In newYork }]) ∧
    ((runAll sample [Call.CreateRegular "" (some [1]) (3300 * time.Second) "abcdefgh"
        ((time.Unix 1730612100 0).In newYork)]).pasteRepository.db =
        [{ ID := "abcdefgh", Content := some [1], IsPersistent := false,
           ExpiredAt := (time.Unix 1730615400 0).In newYork }] ∧
      ((time.Unix 1730615400 0).In newYork).Before ((time.Unix 1730612400 0).In newYork)
        = false ∧
      time.text (sqlite.bind ((time.Unix 1730615400 0).In newYork))
        = "2024-11-03 01:30:00-05:00" ∧
      time.text (sqlite.bind ((time.Unix 1730612400 0).In newYork))
        = "2024-11-03 01:40:00-04:00" ∧
      (CleanExpired
        (runAll sample [Call.CreateRegular "" (some [1]) (3300 * time.Second) "abcdefgh"
          ((time.Unix 1730612100 0).In newYork)])
        ((time.Unix 1730612400 0).In newYork)).state.pasteRepository.db = []) ∧
    (∀ (c : concreteService) (now : time.Time),
      (CleanExpired c now).err = none ∧
      (CleanExpired c now).state.tokenRepository = c.tokenRepository ∧
      (CleanExpired c now).state.options = c.options ∧
      (∀ row ∈ c.pasteRepository.db, row.IsPersistent = true →
        row ∈ (CleanExpired c now).state.pasteRepository.db) ∧
      (∀ row ∈ (CleanExpired c now).state.pasteRepository.db, row ∈ c.pasteRepository.db)) := by
  refine ⟨by decide, by decide, ?_⟩
  intro c now
  refine ⟨rfl, rfl, rfl, ?_, ?_⟩
  · intro row hrow hp
    simp only [CleanExpired, repository.paste.CleanExpired, List.mem_filter]
    refine ⟨hrow, ?_⟩
    simp [repository.paste.expired, hp]
  · intro row hrow
    exact repository.paste.CleanExpired_mem c.pasteRepository now row hrow

/-- C9, counterexample.  The claim, that a second `CleanExpired` leaves the store as the first
left it, is false when the clock has moved on between the two calls, each of which reads
`time.Now()`: a regular paste that expires 5 nanoseconds after the epoch is kept by
`CleanExpired` at 5 nanoseconds and removed by the next `CleanExpired`, at 6 nanoseconds. -/
theorem CleanExpired_idempotent_refuted :
    ((runAll sample [Call.CreateRegular "" (some [1]) 5 "abcdefgh"
        (time.Unix 0 0)]).pasteRepository.db =
        [{ ID := "abcdefgh", Content := some [1], IsPersistent := false,
           ExpiredAt := time.Unix 0 5 }] ∧
      (CleanExpired (runAll sample [Call.CreateRegular "" (some [1]) 5 "abcdefgh"
        (time.Unix 0 0)]) (time.Unix 0 5)).state.pasteRepository.db =
        [{ ID := "abcdefgh", Content := some [1], IsPersistent := false,
           ExpiredAt := time.Unix 0 5 }] ∧
      (CleanExpired (CleanExpired (runAll sample [Call.CreateRegular "" (some [1]) 5 "abcdefgh"
        (time.Unix 0 0)]) (time.Unix 0 5)).state (time.Unix 0 6)).state.pasteRepository.db
        = []) ∧
    ¬ ∀ (c : concreteService) (now now2 : time.Time), now.unixNano ≤ now2.unixNano →
        (CleanExpired (CleanExpired c now).state now2).state = (CleanExpired c now).state := by
  refine ⟨by decide, fun h => ?_⟩
  have h1 := h (runAll sample [Call.CreateRegular "" (some [1]) 5 "abcdefgh" (time.Unix 0 0)])
    (time.Unix 0 5) (time.Unix 0 6) (by decide)
  revert h1
  decide

/-- C9, amended.  A second `CleanExpired` that reads the same clock value as the first, with
no call between the two, returns no error and leaves the service as the first left it.  With
any second reading it leaves the service as the first left it exactly when the delete
condition, taken at the second reading, holds for no paste the first call left. -/
theorem CleanExpired_twice (c : concreteService) (now now2 : time.Time) :
    (CleanExpired (CleanExpired c now).state now).state = (CleanExpired c now).state ∧
    (CleanExpired (CleanExpired c now).state now).err = none ∧
    ((CleanExpired (CleanExpired c now).state now2).state = (CleanExpired c now).state ↔
      ∀ row ∈ (CleanExpired c now).state.pasteRepository.db,
        repository.paste.expired now2 row = false) := by
  refine ⟨?_, rfl, CleanExpired_state_eq_iff (CleanExpired c now).state now2⟩
  simp only [CleanExpired, repository.paste.CleanExpired, List.filter_filter, Bool.and_self]

end service.paste

/-- C10, counterexample.  The claim, that `Exists("")` is false in every state of the token
table reached from the bootstrap with any configured default token, is false: with the empty
string as the default token the bootstrap inserts the empty token and `Exists("")` is true,
and so it is after a `Create` of the empty token. -/
theorem Exists_empty_refuted :
    ((repository.token.Exists
        (runTokenCalls (repository.token.New [] { Token := "" }).state []) "").value = true ∧
      (repository.token.Exists
        (runTokenCalls (repository.token.New [] { Token := "verycooltokensir" }).state
          [TokenCall.Create { Token := "" }]) "").value = true) ∧
    ¬ ∀ (opts : repository.token.Options) (calls : List TokenCall),
        (repository.token.Exists
          (runTokenCalls (repository.token.New [] opts).state calls) "").value = false ∧
        (repository.token.Exists
          (runTokenCalls (repository.token.New [] opts).state calls) "").err = none := by
  refine ⟨by decide, fun h => ?_⟩
  have h1 := (h { Token := "" } []).1
  revert h1
  decide

/-- C10, amended.  In every state of the token table reached from the bootstrap of an empty
table with a non-empty default token, followed by any sequence of calls of the repository none
of which is a `Create` of the empty token, `Exists("")` returns false with no error. -/
theorem Exists_empty_false (opts : repository.token.Options) (calls : List TokenCall)
    (hdefault : opts.Token ≠ "")
    (hcreate : TokenCall.Create { Token := "" } ∉ calls) :
    (repository.token.Exists
      (runTokenCalls (repository.token.New [] opts).state calls) "").value = false ∧
    (repository.token.Exists
      (runTokenCalls (repository.token.New [] opts).state calls) "").err = none := by
  refine ⟨runTokenCalls_Exists_false "" calls hcreate _ ?_, rfl⟩
  rw [repository.token.Exists_value_false_iff]
  intro row hrow
  have hrow2 : row = { Token := opts.Token } := by
    simpa [repository.token.New] using hrow
  rw [hrow2]
  exact hdefault

/-- C10, witness: the bootstrap with the default token of the command line, a token created
and the default token deleted. -/
theorem Exists_empty_false_witness :
    (repository.token.Exists
      (runTokenCalls (repository.token.New [] { Token := "verycooltokensir" }).state
        [TokenCall.Create { Token := "0123456789abcdef0123456789abcdef" },
         TokenCall.Delete "verycooltokensir"]) "").value = false :=
  (Exists_empty_false { Token := "verycooltokensir" }
    [TokenCall.Create { Token := "0123456789abcdef0123456789abcdef" },
     TokenCall.Delete "verycooltokensir"] (by decide) (by decide)).1

namespace service.paste

/-- C11, the code at the failing input.  On the sample service, whose paste table is empty,
`Update` with the valid token and a paste with the id `ghost` returns no error, neither from
the paste table nor from the service, where `ErrRecordNotFound` and `ErrNotFound` are due; the
argument is returned and the service is left as it was.  The paste table's `Delete` of the
same id does return `ErrRecordNotFound`, which the service's `Delete` maps to `ErrNotFound`.
The same holds of `Update` with any valid token and any non-empty id no row has. -/
theorem Update_absent_returns_no_error :
    (repository.token.Exists sample.tokenRepository "verycooltokensir").value = true ∧
    (∀ row ∈ sample.pasteRepository.db, row.ID ≠ "ghost") ∧
    (repository.paste.Update sample.pasteRepository
      { ID := "ghost", Content := some [1], IsPersistent := false, ExpiredAt := time.Unix 0 1000 }).err
      = none ∧
    Update sample "verycooltokensir"
      { ID := "ghost", Content := some [1], IsPersistent := false, ExpiredAt := time.Unix 0 1000 } =
      { value := { ID := "ghost", Content := some [1], IsPersistent := false, ExpiredAt := time.Unix 0 1000 },
        err := none, state := sample } ∧
    (repository.paste.Delete sample.pasteRepository "ghost").err
      = some gorm.Error.ErrRecordNotFound ∧
    (Delete sample "verycooltokensir" "ghost").err = some Error.ErrNotFound ∧
    (∀ (c : concreteService) (token : String) (paste : models.Paste),
      (repository.token.Exists c.tokenRepository token).value = true → paste.ID ≠ "" →
      (∀ row ∈ c.pasteRepository.db, row.ID ≠ paste.ID) →
      Update c token paste = { value := paste, err := none, state := c }) := by
  refine ⟨by decide, by decide, by decide, by decide, by decide, by decide, ?_⟩
  intro c token paste hex hid habsent
  exact Update_of_absent c token paste hex hid habsent

end service.paste

namespace service.paste

/-- C12, counterexample.  The claim, that no operation changes the `IsPersistent` of a paste
that stays in the table, is false for `Update`: on the sample service a regular paste with
the id `abcdefgh` is created, and `Update` with the valid token and the argument
`Paste{ID: abcdefgh, IsPersistent: true}` leaves in the table a paste with that id whose
`IsPersistent` is true. -/
theorem IsPersistent_fixed_refuted :
    ((runAll sample [Call.CreateRegular "" (some [1]) (60 * time.Second) "abcdefgh" (time.Unix 0 0)]
        ).pasteRepository.db =
        [{ ID := "abcdefgh", Content := some [1], IsPersistent := false,
           ExpiredAt := time.Unix 60 0 }] ∧
      (repository.token.Exists (runAll sample
        [Call.CreateRegular "" (some [1]) (60 * time.Second) "abcdefgh" (time.Unix 0 0)]).tokenRepository
        "verycooltokensir").value = true ∧
      (Update (runAll sample [Call.CreateRegular "" (some [1]) (60 * time.Second) "abcdefgh" (time.Unix 0 0)])
        "verycooltokensir"
        { ID := "abcdefgh", Content := none, IsPersistent := true, ExpiredAt := time.zero }).err
        = none ∧
      (Update (runAll sample [Call.CreateRegular "" (some [1]) (60 * time.Second) "abcdefgh" (time.Unix 0 0)])
        "verycooltokensir"
        { ID := "abcdefgh", Content := none, IsPersistent := true, ExpiredAt := time.zero }
        ).state.pasteRepository.db =
        [{ ID := "abcdefgh", Content := some [1], IsPersistent := true,
           ExpiredAt := time.Unix 60 0 }]) ∧
    ¬ ∀ (init : concreteService) (calls : List Call) (call : Call) (p q : models.Paste),
        init.pasteRepository.db = [] →
        p ∈ (runAll init calls).pasteRepository.db →
        q ∈ (Call.run (runAll init calls) call).pasteRepository.db →
        q.ID = p.ID → q.IsPersistent = p.IsPersistent := by
  refine ⟨by decide, fun h => ?_⟩
  have h1 := h sample [Call.CreateRegular "" (some [1]) (60 * time.Second) "abcdefgh" (time.Unix 0 0)]
    (Call.Update "verycooltokensir"
      { ID := "abcdefgh", Content := none, IsPersistent := true, ExpiredAt := time.zero })
    { ID := "abcdefgh", Content := some [1], IsPersistent := false, ExpiredAt := time.Unix 60 0 }
    { ID := "abcdefgh", Content := some [1], IsPersistent := true, ExpiredAt := time.Unix 60 0 }
    (by decide) (by decide) (by decide) (by decide)
  revert h1
  decide

/-- C12, amended.  In every state reached from an empty paste table by calls of the service,
for every paste `p` in the table and every further call: a paste `q` with the id of `p` that
is in the table after the call has the `IsPersistent` of `p`, unless the call is an `Update`
whose argument has `IsPersistent = true`; a flag that is true stays true through every call;
and an `Update` with a token of the token table whose argument has the non-empty id of `p`
and `IsPersistent = true` sets the flag. -/
theorem IsPersistent_fixed (init : concreteService) (calls : List Call) (call : Call)
    (p q : models.Paste) (hinit : init.pasteRepository.db = [])
    (hp : p ∈ (runAll init calls).pasteRepository.db)
    (hq : q ∈ (Call.run (runAll init calls) call).pasteRepository.db)
    (hid : q.ID = p.ID) :
    ((∀ token paste, call = Call.Update token paste → paste.IsPersistent = false) →
      q.IsPersistent = p.IsPersistent) ∧
    (p.IsPersistent = true → q.IsPersistent = true) ∧
    (∀ token paste, call = Call.Update token paste →
      (repository.token.Exists (runAll init calls).tokenRepository token).value = true →
      paste.ID = p.ID → p.ID ≠ "" → paste.IsPersistent = true → q.IsPersistent = true) := by
  have hnodup : ((runAll init calls).pasteRepository.db.map (fun row => row.ID)).Nodup :=
    runAll_ids_nodup calls init (by rw [hinit]; exact List.nodup_nil)
  have h := Call.run_IsPersistent (runAll init calls) call hnodup p q hp hq hid
  refine ⟨h.1, h.2, ?_⟩
  intro token paste hcall hex hpaste hne hflag
  subst hcall
  exact Update_sets_IsPersistent (runAll init calls) token paste hex hnodup p q hp hq hid
    hpaste hne hflag

/-- C12, witness: on the sample service a persistent paste `mydoc` is created; `Update` with
an argument whose flag is false, new content and a new expiry leaves the flag as it was. -/
theorem IsPersistent_fixed_witness :
    ({ ID := "mydoc", Content := some [1], IsPersistent := true,
        ExpiredAt := time.Date 9999 12 31 23 59 59 0 } : models.Paste) ∈
      (runAll sample
        [Call.CreatePersistent "verycooltokensir" "mydoc" (some [1]) 0 (time.Unix 0 0)]).pasteRepository.db ∧
    ({ ID := "mydoc", Content := some [2], IsPersistent := true, ExpiredAt := time.Unix 0 77 } :
        models.Paste) ∈
      (Call.run (runAll sample [Call.CreatePersistent "verycooltokensir" "mydoc" (some [1]) 0 (time.Unix 0 0)])
        (Call.Update "verycooltokensir"
          { ID := "mydoc", Content := some [2], IsPersistent := false, ExpiredAt := time.Unix 0 77 })
        ).pasteRepository.db ∧
    ({ ID := "mydoc", Content := some [2], IsPersistent := true, ExpiredAt := time.Unix 0 77 } :
        models.Paste).IsPersistent =
      ({ ID := "mydoc", Content := some [1], IsPersistent := true,
         ExpiredAt := time.Date 9999 12 31 23 59 59 0 } : models.Paste).IsPersistent :=
  ⟨by decide, by decide,
    (IsPersistent_fixed sample
      [Call.CreatePersistent "verycooltokensir" "mydoc" (some [1]) 0 (time.Unix 0 0)]
      (Call.Update "verycooltokensir"
        { ID := "mydoc", Content := some [2], IsPersistent := false, ExpiredAt := time.Unix 0 77 })
      { ID := "mydoc", Content := some [1], IsPersistent := true,
        ExpiredAt := time.Date 9999 12 31 23 59 59 0 }
      { ID := "mydoc", Content := some [2], IsPersistent := true, ExpiredAt := time.Unix 0 77 }
      (by decide) (by decide) (by decide) rfl).1
      (fun token paste h => by cases h; rfl)⟩

end service.paste

end barkpaste
